import Mathlib

/-!
Verification of `src/agent/database_physical_backup.py` (class
`DatabasePhysicalBackup`), a physical-backup orchestrator for MySQL/MariaDB
databases.  The Python class is shallowly embedded: the orchestrator's
mutable attributes become the fields of `BackupState`, every externally
visible operation (SQL statement, directory listing, dump subprocess,
snapshot HTTP call) is recorded as an `Event` in a chronological trace, and
the outcomes of the external collaborators (database server, filesystem,
dump utility, snapshot service) are supplied by an `Env` record.  Python
exceptions become `Option AgentError` results that abort the remaining
steps while keeping the state mutated so far, exactly as an exception
propagating out of a method would.
-/

namespace Agent

/-- Lexicographic comparison of character lists by code point; models the
`ORDER BY table_name` collation of the catalog query. -/
def lexLe : List Char → List Char → Bool
  | [], _ => true
  | _ :: _, [] => false
  | a :: as, b :: bs =>
    if a.toNat < b.toNat then true
    else if b.toNat < a.toNat then false
    else lexLe as bs

/-- Lexicographic comparison of strings by code point. -/
def strLe (a b : String) : Bool := lexLe a.data b.data

/-- Constructor arguments of `DatabasePhysicalBackup.__init__`
(`databases, db_user, db_password, snapshot_trigger_url, db_host, db_port,
db_base_path`). -/
structure Config where
  databases : List String
  db_user : String
  db_password : String
  snapshot_trigger_url : String
  db_host : String
  db_port : Nat
  db_base_path : String
deriving Repr

/-- One externally visible operation performed by the orchestrator, in the
order the Python code issues them. -/
inductive Event where
  /-- `peewee.MySQLDatabase(...).connect()` for a database (in `get_db`). -/
  | connect (db : String)
  /-- `SET SESSION wait_timeout = <seconds>;` issued right after connecting. -/
  | sessionTimeout (db : String) (seconds : Nat)
  /-- The `information_schema.tables` catalog query of `fetch_table_info`. -/
  | catalogQuery (db : String)
  /-- A successfully executed `FLUSH TABLES ... FOR EXPORT;` statement. -/
  | flush (db : String) (stmt : String)
  /-- `flush_changes_to_disk` finished fsyncing every file of the database
  directory. -/
  | syncDone (db : String)
  /-- `validate_exportable_files` found every required file for the database. -/
  | validated (db : String)
  /-- `export_table_schema` (the `mariadb-dump --no-data` subprocess)
  succeeded for the database. -/
  | schemaExported (db : String)
  /-- `requests.post(self.snapshot_trigger_url)` in `create_snapshot`. -/
  | snapshotCall (url : String)
  /-- A successfully executed `UNLOCK TABLES;` statement (`_unlock_tables`). -/
  | unlockStmt (db : String)
  /-- `close()` of a cached connection (in `__del__`). -/
  | closeConn (db : String)
deriving DecidableEq, Repr

/-- Coarse classification of events, used to state which kinds of operations
a given step may perform. -/
inductive EKind where
  | connectK | timeoutK | catalogK | flushK | syncK
  | validatedK | schemaK | snapshotK | unlockK | closeK
deriving DecidableEq, Repr

/-- The kind of an event. -/
def Event.kind : Event → EKind
  | .connect _ => .connectK
  | .sessionTimeout _ _ => .timeoutK
  | .catalogQuery _ => .catalogK
  | .flush _ _ => .flushK
  | .syncDone _ => .syncK
  | .validated _ => .validatedK
  | .schemaExported _ => .schemaK
  | .snapshotCall _ => .snapshotK
  | .unlockStmt _ => .unlockK
  | .closeConn _ => .closeK

/-- The database an event concerns, when there is one. -/
def Event.dbOf : Event → Option String
  | .connect db => some db
  | .sessionTimeout db _ => some db
  | .catalogQuery db => some db
  | .flush db _ => some db
  | .syncDone db => some db
  | .validated db => some db
  | .schemaExported db => some db
  | .snapshotCall _ => none
  | .unlockStmt db => some db
  | .closeConn db => some db

/-- Error taxonomy of the run, using the spec's names.  Mapping to the code:
`configurationError` and `unknownDatabase` are the two `ValueError`s,
`connectionClosed` is `DatabaseConnectionClosedWithDatabase`,
`lockAcquisitionError` is the driver error raised by a failing
`FLUSH TABLES ... FOR EXPORT` statement, `exportFileNotFound` is
`DatabaseExportFileNotFoundError` (carrying its message),
`schemaExportError` is `DatabaseSchemaExportError`, and
`snapshotTriggerError` is the `raise_for_status()` error of a non-success
snapshot response. -/
inductive AgentError where
  | configurationError
  | unknownDatabase (db : String)
  | connectionClosed (db : String)
  | lockAcquisitionError (db : String)
  | exportFileNotFound (msg : String)
  | schemaExportError (db : String)
  | snapshotTriggerError
deriving DecidableEq, Repr

/-- The mutable attributes of a `DatabasePhysicalBackup` object, plus the
chronological trace of external operations (`events`).  Python dicts keyed
by database name become total functions from `String` (absent keys map to
the dict-construction defaults). -/
structure BackupState where
  databases : List String
  dbUser : String
  dbPassword : String
  snapshotTriggerUrl : String
  dbHost : String
  dbPort : Nat
  dbBasePath : String
  /-- `self.innodb_tables` -/
  innodbTables : String → List String
  /-- `self.myisam_tables` -/
  myisamTables : String → List String
  /-- `self.table_schemas` (`none` = key absent) -/
  tableSchemas : String → Option String
  /-- `self._db_tables_locked` -/
  locked : String → Bool
  /-- The keys of `self._db_instances` (databases with a created handle). -/
  instances : List String
  events : List Event

/-- Pointwise update of a dict modelled as a function. -/
def updateFn {α : Type} (f : String → α) (k : String) (v : α) : String → α :=
  fun x => if x = k then v else f x

/-- Behaviour of the external collaborators during one run.  Connections are
assumed to stay usable according to `usable`; reads of the catalog, the
directory listings and the dump utility output are fixed per database; the
snapshot service answers success according to `snapshotOk`. -/
structure Env where
  /-- `is_connection_usable()` result for a cached handle. -/
  usable : String → Bool
  /-- Rows `(table_name, ENGINE)` of the catalog for a database (before the
  `ORDER BY` is applied). -/
  catalogRows : String → List (String × String)
  /-- Whether `FLUSH TABLES ... FOR EXPORT` succeeds for a database. -/
  flushOk : String → Bool
  /-- `os.listdir` result for a directory path. -/
  listDir : String → List String
  /-- `mariadb-dump --no-data` stdout for a database, `none` = non-zero exit. -/
  dumpOutput : String → Option String
  /-- Whether the snapshot endpoint answers a success status. -/
  snapshotOk : Bool

/-- `DatabasePhysicalBackup.__init__`: rejects an empty database list with
`ValueError` (spec: `ConfigurationError`); otherwise every dict is
initialised and no connection is created. -/
def init (cfg : Config) : Except AgentError BackupState :=
  if cfg.databases = [] then .error .configurationError
  else .ok
    { databases := cfg.databases
      dbUser := cfg.db_user
      dbPassword := cfg.db_password
      snapshotTriggerUrl := cfg.snapshot_trigger_url
      dbHost := cfg.db_host
      dbPort := cfg.db_port
      dbBasePath := cfg.db_base_path
      innodbTables := fun _ => []
      myisamTables := fun _ => []
      tableSchemas := fun _ => none
      locked := fun _ => false
      instances := []
      events := [] }

/-- `os.path.join(self.db_base_path, db)` for the usual relative database
names. -/
def dbDirectory (s : BackupState) (db : String) : String :=
  s.dbBasePath ++ "/" ++ db

/-- `get_db`: reuse a cached handle after a liveness check (raising
`ConnectionClosed` when unusable); otherwise require `db` to be configured
(raising `UnknownDatabase`), create and connect a new handle and raise the
session `wait_timeout` to 14400 seconds. -/
def get_db (env : Env) (s : BackupState) (db : String) : Except AgentError BackupState :=
  if db ∈ s.instances then
    if env.usable db then .ok s
    else .error (.connectionClosed db)
  else if db ∈ s.databases then
    .ok { s with
      instances := s.instances ++ [db]
      events := s.events ++ [.connect db, .sessionTimeout db 14400] }
  else .error (.unknownDatabase db)

/-- `get_db` repackaged as result state plus optional error (the raising
call leaves the state as it was). -/
def getDbR (env : Env) (s : BackupState) (db : String) : BackupState × Option AgentError :=
  match get_db env s db with
  | .ok s2 => (s2, none)
  | .error e => (s, some e)

/-- Run the continuation only when no exception is pending. -/
def afterOk (r : BackupState × Option AgentError)
    (k : BackupState → BackupState × Option AgentError) :
    BackupState × Option AgentError :=
  match r with
  | (s, none) => k s
  | (s, some e) => (s, some e)

/-- A `for db_name in self.databases:` loop whose body may raise: the loop
stops at the first exception. -/
def foldDbs (g : BackupState → String → BackupState × Option AgentError) :
    List String → BackupState → BackupState × Option AgentError
  | [], s => (s, none)
  | db :: rest, s =>
    match g s db with
    | (s2, none) => foldDbs g rest s2
    | (s2, some e) => (s2, some e)

/-- The order by which the catalog query sorts its rows: lexicographic on
the table name. -/
def rowLe (a b : String × String) : Prop := strLe a.1 b.1 = true

instance : DecidableRel rowLe := fun a b => instDecidableEqBool (strLe a.1 b.1) true

/-- Result set of the catalog query: the issued SQL ends in
`ORDER BY table_name`, so the external server delivers the rows sorted by
table name. -/
def catalogQueryResult (rows : List (String × String)) : List (String × String) :=
  List.insertionSort rowLe rows

/-- The classification body of the row loop in `fetch_table_info`
(lines 70-76): `InnoDB` rows are appended to the first list, `MyISAM` rows
to the second, every other engine is skipped. -/
def classifyStep (acc : List String × List String) (row : String × String) :
    List String × List String :=
  if row.2 = "InnoDB" then (acc.1 ++ [row.1], acc.2)
  else if row.2 = "MyISAM" then (acc.1, acc.2 ++ [row.1])
  else acc

/-- The row loop of `fetch_table_info` over a whole result set. -/
def classifyRows (rows : List (String × String)) : List String × List String :=
  rows.foldl classifyStep ([], [])

/-- Catalog step for one database, as a pure function of the raw catalog
rows: the query sorts them, the loop classifies them. -/
def catalogTables (rows : List (String × String)) : List String × List String :=
  classifyRows (catalogQueryResult rows)

/-- Body of the `fetch_table_info` loop for one database. -/
def fetch_table_info_db (env : Env) (s : BackupState) (db : String) :
    BackupState × Option AgentError :=
  afterOk (getDbR env s db) fun s1 =>
    let cls := catalogTables (env.catalogRows db)
    ({ s1 with
        events := s1.events ++ [.catalogQuery db]
        innodbTables := updateFn s1.innodbTables db (s1.innodbTables db ++ cls.1)
        myisamTables := updateFn s1.myisamTables db (s1.myisamTables db ++ cls.2) },
     none)

/-- `fetch_table_info` (step "Fetch Database Tables Information"). -/
def fetch_table_info (env : Env) (s : BackupState) : BackupState × Option AgentError :=
  foldDbs (fetch_table_info_db env) s.databases s

/-- The statement built at line 94:
`"FLUSH TABLES {} FOR EXPORT;".format(", ".join(tables))`. -/
def flushStatement (tables : List String) : String :=
  "FLUSH TABLES " ++ String.intercalate ", " tables ++ " FOR EXPORT;"

/-- Body of the `flush_tables` loop for one database: build the statement
from the concatenated InnoDB and MyISAM lists, execute it, and only on
success set the lock flag. -/
def flush_tables_db (env : Env) (s : BackupState) (db : String) :
    BackupState × Option AgentError :=
  afterOk (getDbR env s db) fun s1 =>
    let tables := s1.innodbTables db ++ s1.myisamTables db
    if env.flushOk db then
      ({ s1 with
          events := s1.events ++ [.flush db (flushStatement tables)]
          locked := updateFn s1.locked db true },
       none)
    else (s1, some (.lockAcquisitionError db))

/-- `flush_tables` (step "Flush Database Tables"). -/
def flush_tables (env : Env) (s : BackupState) : BackupState × Option AgentError :=
  foldDbs (flush_tables_db env) s.databases s

/-- Body of the `flush_changes_to_disk` loop for one database: fsync every
file of the database directory (the filesystem is assumed readable, so the
loop cannot raise). -/
def flush_changes_to_disk_db (env : Env) (s : BackupState) (db : String) :
    BackupState × Option AgentError :=
  ({ s with events := s.events ++ [.syncDone db] }, none)

/-- `flush_changes_to_disk` (step "Flush Changes to Disk"). -/
def flush_changes_to_disk (env : Env) (s : BackupState) : BackupState × Option AgentError :=
  foldDbs (flush_changes_to_disk_db env) s.databases s

/-- First catalogued InnoDB table whose `<table>.ibd` tablespace file is
missing from the directory listing (the loop at lines 121-124). -/
def firstMissingInnodb (tables files : List String) : Option String :=
  tables.find? (fun t => !(files.contains (t ++ ".ibd")))

/-- First catalogued MyISAM table whose `<table>.MYD` or `<table>.MYI`
companion file is missing (the loop at lines 128-132; both missing files
raise the same message). -/
def firstMissingMyisam (tables files : List String) : Option String :=
  tables.find? (fun t => !(files.contains (t ++ ".MYD")) || !(files.contains (t ++ ".MYI")))

/-- Body of the `validate_exportable_files` loop for one database. -/
def validate_exportable_files_db (env : Env) (s : BackupState) (db : String) :
    BackupState × Option AgentError :=
  let files := env.listDir (dbDirectory s db)
  match firstMissingInnodb (s.innodbTables db) files with
  | some t => (s, some (.exportFileNotFound ("IBD file for table " ++ t ++ " not found")))
  | none =>
    match firstMissingMyisam (s.myisamTables db) files with
    | some t => (s, some (.exportFileNotFound ("MYD or MYI file for table " ++ t ++ " not found")))
    | none => ({ s with events := s.events ++ [.validated db] }, none)

/-- `validate_exportable_files` (step "Validate Exportable Files"). -/
def validate_exportable_files (env : Env) (s : BackupState) : BackupState × Option AgentError :=
  foldDbs (validate_exportable_files_db env) s.databases s

/-- Body of the `export_table_schemas` loop for one database:
`export_table_schema` runs the dump subprocess; a non-zero exit raises
`SchemaExportError`, otherwise the stdout is stored in `table_schemas`. -/
def export_table_schemas_db (env : Env) (s : BackupState) (db : String) :
    BackupState × Option AgentError :=
  match env.dumpOutput db with
  | some out =>
    ({ s with
        tableSchemas := updateFn s.tableSchemas db (some out)
        events := s.events ++ [.schemaExported db] },
     none)
  | none => (s, some (.schemaExportError db))

/-- `export_table_schemas` (step "Export Table Schema"). -/
def export_table_schemas (env : Env) (s : BackupState) : BackupState × Option AgentError :=
  foldDbs (export_table_schemas_db env) s.databases s

/-- `export_collected_metadata` (step "Export Collected Metadata"): the pure
manifest it returns.  `backup_job` discards the return value, so as a
pipeline step it leaves the state unchanged. -/
def export_collected_metadata (s : BackupState) :
    List (String × (List String × List String × Option String)) :=
  s.databases.map fun db => (db, (s.innodbTables db, s.myisamTables db, s.tableSchemas db))

/-- `export_collected_metadata` as a pipeline step. -/
def export_collected_metadata_step (env : Env) (s : BackupState) :
    BackupState × Option AgentError :=
  (s, none)

/-- `create_snapshot` (step "Create Database Snapshot"): the blocking POST
is always issued; `raise_for_status()` raises on a non-success response
(spec: `SnapshotTriggerError`). -/
def create_snapshot (env : Env) (s : BackupState) : BackupState × Option AgentError :=
  ({ s with events := s.events ++ [.snapshotCall s.snapshotTriggerUrl] },
   if env.snapshotOk then none else some .snapshotTriggerError)

/-- `_unlock_tables`: unconditionally execute `UNLOCK TABLES;` on the
database's connection, then set the lock flag to `false`. -/
def unlock_tables_db (env : Env) (s : BackupState) (db : String) :
    BackupState × Option AgentError :=
  afterOk (getDbR env s db) fun s1 =>
    ({ s1 with
        events := s1.events ++ [.unlockStmt db]
        locked := updateFn s1.locked db false },
     none)

/-- `unlock_all_tables` (step "Unlock Tables"). -/
def unlock_all_tables (env : Env) (s : BackupState) : BackupState × Option AgentError :=
  foldDbs (unlock_tables_db env) s.databases s

/-- `backup_job`: the eight steps in order; an exception in one step skips
the remaining steps. -/
def backup_job (env : Env) (s : BackupState) : BackupState × Option AgentError :=
  afterOk (fetch_table_info env s) fun s1 =>
  afterOk (flush_tables env s1) fun s2 =>
  afterOk (flush_changes_to_disk env s2) fun s3 =>
  afterOk (validate_exportable_files env s3) fun s4 =>
  afterOk (export_table_schemas env s4) fun s5 =>
  afterOk (export_collected_metadata_step env s5) fun s6 =>
  afterOk (create_snapshot env s6) fun s7 =>
  unlock_all_tables env s7

/-- Body of the first `__del__` loop: unlock a database only when its flag
is still set. -/
def del_unlock_db (env : Env) (s : BackupState) (db : String) :
    BackupState × Option AgentError :=
  if s.locked db then unlock_tables_db env s db else (s, none)

/-- Body of the second `__del__` loop: `self.get_db(db_name).close()`. -/
def close_db (env : Env) (s : BackupState) (db : String) :
    BackupState × Option AgentError :=
  afterOk (getDbR env s db) fun s1 =>
    ({ s1 with events := s1.events ++ [.closeConn db] }, none)

/-- `__del__`: force-unlock every database still flagged locked, then close
every connection.  An exception aborts the remaining teardown, like an
exception escaping the destructor body. -/
def del_run (env : Env) (s : BackupState) : BackupState × Option AgentError :=
  afterOk (foldDbs (del_unlock_db env) s.databases s) fun s1 =>
    foldDbs (close_db env) s1.databases s1

/-- The state standing for "the constructor raised": no object exists, so
nothing is locked, connected or recorded. -/
def emptyState : BackupState :=
  { databases := []
    dbUser := ""
    dbPassword := ""
    snapshotTriggerUrl := ""
    dbHost := ""
    dbPort := 0
    dbBasePath := ""
    innodbTables := fun _ => []
    myisamTables := fun _ => []
    tableSchemas := fun _ => none
    locked := fun _ => false
    instances := []
    events := [] }

/-- A whole process: construct the orchestrator, run `backup_job`, and let
`__del__` run at process end whatever the job's outcome was.  The returned
error is the job's (a destructor error is swallowed by the runtime). -/
def runBackup (env : Env) (cfg : Config) : BackupState × Option AgentError :=
  match init cfg with
  | .error e => (emptyState, some e)
  | .ok s0 =>
    let r := backup_job env s0
    let t := del_run env r.1
    (t.1, r.2)

/-- The list of states the process passes through, at step granularity:
the state after construction, the state after each executed pipeline step,
and the state after teardown. -/
def stepTrace (r : BackupState × Option AgentError)
    (k : BackupState → List BackupState) : List BackupState :=
  match r with
  | (s, none) => s :: k s
  | (s, some _) => [s]

/-- States after each executed step of `backup_job`. -/
def jobTrace (env : Env) (s : BackupState) : List BackupState :=
  stepTrace (fetch_table_info env s) fun s1 =>
  stepTrace (flush_tables env s1) fun s2 =>
  stepTrace (flush_changes_to_disk env s2) fun s3 =>
  stepTrace (validate_exportable_files env s3) fun s4 =>
  stepTrace (export_table_schemas env s4) fun s5 =>
  stepTrace (export_collected_metadata_step env s5) fun s6 =>
  stepTrace (create_snapshot env s6) fun s7 =>
  stepTrace (unlock_all_tables env s7) fun _ => []

/-- All states of a whole process run, at step granularity. -/
def runStates (env : Env) (cfg : Config) : List BackupState :=
  match init cfg with
  | .error _ => [emptyState]
  | .ok s0 => s0 :: jobTrace env s0 ++ [(runBackup env cfg).1]

/-- The lock flag a flush/unlock event trace prescribes for a database:
`true` after a successful flush-for-export on it, `false` after an unlock
on it, `false` at the start. -/
def lockStep (db : String) (b : Bool) : Event → Bool
  | .flush d _ => if d = db then true else b
  | .unlockStmt d => if d = db then false else b
  | _ => b

/-- Lock flag prescribed by a whole trace. -/
def lockedInTrace (db : String) (tr : List Event) : Bool :=
  tr.foldl (lockStep db) false

/-- Does the trace contain an event of kind `k`? -/
def hasK (k : EKind) (tr : List Event) : Bool :=
  tr.any (fun e => e.kind == k)

/-- Does the trace contain an event of kind `k` about database `db`? -/
def hasKDb (k : EKind) (db : String) (tr : List Event) : Bool :=
  tr.any (fun e => e.kind == k && e.dbOf == some db)

/-- Names of the rows with engine `InnoDB`, in row order. -/
def innOf (rows : List (String × String)) : List String :=
  (rows.filter (fun r => r.2 == "InnoDB")).map Prod.fst

/-- Names of the rows with engine `MyISAM`, in row order. -/
def myOf (rows : List (String × String)) : List String :=
  (rows.filter (fun r => r.2 == "MyISAM")).map Prod.fst

/-- Strict name order on rows: used to pin sorted lists down uniquely. -/
def rowLt (a b : String × String) : Prop := rowLe a b ∧ a.1 ≠ b.1

/-- `s2` extends the trace of `s` with events of the given kinds only. -/
def Deltas (s s2 : BackupState) (ks : List EKind) : Prop :=
  ∃ d, s2.events = s.events ++ d ∧ ∀ e ∈ d, e.kind ∈ ks

/-- The run invariant: the lock flag of every database is exactly what the
flush/unlock events of the trace prescribe, and only configured databases
are ever flagged locked. -/
def StateOk (s : BackupState) : Prop :=
  (∀ db, s.locked db = lockedInTrace db s.events) ∧
  (∀ db, s.locked db = true → db ∈ s.databases)

/-- The part of a trace strictly before the first snapshot call. -/
def preSnap (tr : List Event) : List Event :=
  tr.takeWhile (fun e => !(e.kind == EKind.snapshotK))

/-- All restore-critical files of a database are present: each catalogued
InnoDB table has its `.ibd` tablespace file and each catalogued MyISAM
table has both its `.MYD` data file and `.MYI` index file in the
database's directory listing. -/
def dbFilesOk (env : Env) (s : BackupState) (db : String) : Prop :=
  (∀ t ∈ s.innodbTables db, (t ++ ".ibd") ∈ env.listDir (dbDirectory s db)) ∧
  (∀ t ∈ s.myisamTables db, (t ++ ".MYD") ∈ env.listDir (dbDirectory s db) ∧
    (t ++ ".MYI") ∈ env.listDir (dbDirectory s db))

/-- A well-behaved environment: one InnoDB table `t1`, one MyISAM table
`t2`, one CSV table `t3`, all required files present, dump and snapshot
succeed. -/
def envA : Env :=
  { usable := fun _ => true
    catalogRows := fun _ => [("t2", "MyISAM"), ("t3", "CSV"), ("t1", "InnoDB")]
    flushOk := fun _ => true
    listDir := fun _ => ["t1.ibd", "t1.frm", "t2.MYD", "t2.MYI", "t2.frm"]
    dumpOutput := fun _ => some "CREATE TABLE t1 (id INT);"
    snapshotOk := true }

/-- A single configured database named `shop`. -/
def cfgA : Config :=
  { databases := ["shop"]
    db_user := "backup"
    db_password := "pw"
    snapshot_trigger_url := "http://snapshots.local/trigger"
    db_host := "localhost"
    db_port := 3306
    db_base_path := "/var/lib/mysql" }

/-- Like `envA` but the flush-for-export statement fails. -/
def envB : Env := { envA with flushOk := fun _ => false }

/-- The state a fresh `DatabasePhysicalBackup(["shop"], ...)` object is in
right after construction. -/
def s0A : BackupState :=
  { databases := ["shop"]
    dbUser := "backup"
    dbPassword := "pw"
    snapshotTriggerUrl := "http://snapshots.local/trigger"
    dbHost := "localhost"
    dbPort := 3306
    dbBasePath := "/var/lib/mysql"
    innodbTables := fun _ => []
    myisamTables := fun _ => []
    tableSchemas := fun _ => none
    locked := fun _ => false
    instances := []
    events := [] }

/-- Like `s0A` but with a cached connection for `shop`. -/
def sD : BackupState := { s0A with instances := ["shop"] }

/-- Like `envA` but the cached connection is no longer usable. -/
def envDead : Env := { envA with usable := fun _ => false }

/-- A catalogued InnoDB table `orders` in database `shop`, but the
directory listing lacks `orders.ibd`. -/
def envC : Env :=
  { envA with
    catalogRows := fun _ => [("orders", "InnoDB")]
    listDir := fun _ => ["orders.frm"] }

/-- The state of the orchestrator right before file validation in the
`shop`/`orders` scenario. -/
def sC : BackupState :=
  { s0A with
    instances := ["shop"]
    innodbTables := updateFn (fun _ => []) "shop" ["orders"] }

/-! ### The lexicographic string order used by the catalog -/

theorem lexLe_total : ∀ as bs : List Char, lexLe as bs = true ∨ lexLe bs as = true := by
  intro as
  induction as with
  | nil => intro bs; left; rfl
  | cons a as ih =>
    intro bs
    cases bs with
    | nil => right; rfl
    | cons b bs =>
      by_cases h1 : a.toNat < b.toNat
      · left; simp [lexLe, h1]
      · by_cases h2 : b.toNat < a.toNat
        · right; simp [lexLe, h2]
        · rcases ih bs with h | h
          · left; simp [lexLe, h1, h2, h]
          · right; simp [lexLe, h1, h2, h]

theorem lexLe_trans : ∀ as bs cs : List Char,
    lexLe as bs = true → lexLe bs cs = true → lexLe as cs = true := by
  intro as
  induction as with
  | nil => intro bs cs _ _; rfl
  | cons a as ih =>
    intro bs cs h1 h2
    cases bs with
    | nil => simp [lexLe] at h1
    | cons b bs =>
      cases cs with
      | nil => simp [lexLe] at h2
      | cons c cs =>
        simp only [lexLe] at h1 h2 ⊢
        by_cases hab : a.toNat < b.toNat
        · by_cases hbc : b.toNat < c.toNat
          · have : a.toNat < c.toNat := by omega
            simp [this]
          · by_cases hcb : c.toNat < b.toNat
            · simp [hbc, hcb] at h2
            · have : a.toNat < c.toNat := by omega
              simp [this]
        · by_cases hba : b.toNat < a.toNat
          · simp [hab, hba] at h1
          · by_cases hbc : b.toNat < c.toNat
            · have : a.toNat < c.toNat := by omega
              simp [this]
            · by_cases hcb : c.toNat < b.toNat
              · simp [hbc, hcb] at h2
              · have hac : ¬ a.toNat < c.toNat := by omega
                have hca : ¬ c.toNat < a.toNat := by omega
                rw [if_neg hab, if_neg hba] at h1
                rw [if_neg hbc, if_neg hcb] at h2
                rw [if_neg hac, if_neg hca]
                exact ih bs cs h1 h2

theorem lexLe_antisymm : ∀ as bs : List Char,
    lexLe as bs = true → lexLe bs as = true → as = bs := by
  intro as
  induction as with
  | nil =>
    intro bs _ h2
    cases bs with
    | nil => rfl
    | cons b bs => simp [lexLe] at h2
  | cons a as ih =>
    intro bs h1 h2
    cases bs with
    | nil => simp [lexLe] at h1
    | cons b bs =>
      simp only [lexLe] at h1 h2
      by_cases hab : a.toNat < b.toNat
      · have hba : ¬ b.toNat < a.toNat := by omega
        simp [hab, hba] at h2
      · by_cases hba : b.toNat < a.toNat
        · simp [hab, hba] at h1
        · have hn : a.toNat = b.toNat := by omega
          have hc : a = b := Char.ext (UInt32.ext hn)
          rw [if_neg hab, if_neg hba] at h1
          rw [if_neg hba, if_neg hab] at h2
          rw [hc, ih bs h1 h2]

theorem strLe_total (a b : String) : strLe a b = true ∨ strLe b a = true :=
  lexLe_total a.data b.data

theorem strLe_trans {a b c : String} (h1 : strLe a b = true) (h2 : strLe b c = true) :
    strLe a c = true :=
  lexLe_trans a.data b.data c.data h1 h2

theorem strLe_antisymm {a b : String} (h1 : strLe a b = true) (h2 : strLe b a = true) :
    a = b := by
  cases a with
  | mk da =>
    cases b with
    | mk db => exact congrArg String.mk (lexLe_antisymm da db h1 h2)

theorem catalogQueryResult_sorted (rows : List (String × String)) :
    (catalogQueryResult rows).Pairwise rowLe := by
  haveI : IsTotal (String × String) rowLe := ⟨fun a b => strLe_total a.1 b.1⟩
  haveI : IsTrans (String × String) rowLe := ⟨fun _ _ _ => strLe_trans⟩
  have h := List.sorted_insertionSort rowLe rows
  simpa [catalogQueryResult, rowLe, List.Sorted] using h

theorem catalogQueryResult_perm (rows : List (String × String)) :
    (catalogQueryResult rows).Perm rows :=
  List.perm_insertionSort _ rows

/-! ### The row classification of `fetch_table_info` -/



theorem foldl_classifyStep (rows : List (String × String)) :
    ∀ a b : List String,
      rows.foldl classifyStep (a, b) = (a ++ innOf rows, b ++ myOf rows) := by
  induction rows with
  | nil => intro a b; simp [innOf, myOf]
  | cons r rest ih =>
    intro a b
    by_cases h1 : r.2 = "InnoDB"
    · have hne : ¬ (r.2 == "MyISAM") = true := by simp [h1]
      simp only [List.foldl_cons, classifyStep, if_pos h1, innOf, myOf,
        List.filter_cons, h1]
      rw [ih]
      simp [innOf, myOf, hne, h1]
    · by_cases h2 : r.2 = "MyISAM"
      · have hne : ¬ (r.2 == "InnoDB") = true := by simp [h2]
        simp only [List.foldl_cons, classifyStep, if_neg h1, if_pos h2, innOf, myOf,
          List.filter_cons, h2]
        rw [ih]
        simp [innOf, myOf, hne, h2]
      · simp only [List.foldl_cons, classifyStep, if_neg h1, if_neg h2, innOf, myOf,
          List.filter_cons]
        rw [ih]
        simp [innOf, myOf, h1, h2]

theorem classifyRows_eq (rows : List (String × String)) :
    classifyRows rows = (innOf rows, myOf rows) := by
  simpa using foldl_classifyStep rows [] []

theorem mem_innOf (rows : List (String × String)) (t : String) :
    t ∈ innOf rows ↔ (t, "InnoDB") ∈ rows := by
  simp only [innOf, List.mem_map, List.mem_filter, beq_iff_eq]
  constructor
  · rintro ⟨r, ⟨hr, he⟩, rfl⟩
    have : (r.1, "InnoDB") = r := by rw [← he]
    rwa [this]
  · intro h
    exact ⟨(t, "InnoDB"), ⟨h, rfl⟩, rfl⟩

theorem mem_myOf (rows : List (String × String)) (t : String) :
    t ∈ myOf rows ↔ (t, "MyISAM") ∈ rows := by
  simp only [myOf, List.mem_map, List.mem_filter, beq_iff_eq]
  constructor
  · rintro ⟨r, ⟨hr, he⟩, rfl⟩
    have : (r.1, "MyISAM") = r := by rw [← he]
    rwa [this]
  · intro h
    exact ⟨(t, "MyISAM"), ⟨h, rfl⟩, rfl⟩

theorem catalogTables_fst_sorted (rows : List (String × String)) :
    (catalogTables rows).1.Pairwise (fun t u => strLe t u = true) := by
  rw [catalogTables, classifyRows_eq]
  have hs : (catalogQueryResult rows).Pairwise rowLe := catalogQueryResult_sorted rows
  have hf : ((catalogQueryResult rows).filter (fun r => r.2 == "InnoDB")).Pairwise rowLe :=
    hs.sublist (List.filter_sublist _)
  exact List.pairwise_map.mpr hf

theorem catalogTables_snd_sorted (rows : List (String × String)) :
    (catalogTables rows).2.Pairwise (fun t u => strLe t u = true) := by
  rw [catalogTables, classifyRows_eq]
  have hs : (catalogQueryResult rows).Pairwise rowLe := catalogQueryResult_sorted rows
  have hf : ((catalogQueryResult rows).filter (fun r => r.2 == "MyISAM")).Pairwise rowLe :=
    hs.sublist (List.filter_sublist _)
  exact List.pairwise_map.mpr hf


theorem catalogQueryResult_eq_of_perm {r1 r2 : List (String × String)}
    (hp : r1.Perm r2) (hnd : (r1.map Prod.fst).Nodup) :
    catalogQueryResult r1 = catalogQueryResult r2 := by
  have hperm : (catalogQueryResult r1).Perm (catalogQueryResult r2) :=
    ((catalogQueryResult_perm r1).trans hp).trans (catalogQueryResult_perm r2).symm
  have hnd1 : ((catalogQueryResult r1).map Prod.fst).Nodup :=
    (((catalogQueryResult_perm r1).map Prod.fst).nodup_iff).mpr hnd
  have hnd2 : ((catalogQueryResult r2).map Prod.fst).Nodup := by
    have : (r2.map Prod.fst).Nodup := ((hp.map Prod.fst).nodup_iff).mp hnd
    exact (((catalogQueryResult_perm r2).map Prod.fst).nodup_iff).mpr this
  have hs1 : (catalogQueryResult r1).Pairwise rowLt := by
    have hne := List.pairwise_map.mp hnd1
    exact ((catalogQueryResult_sorted r1).and hne)
  have hs2 : (catalogQueryResult r2).Pairwise rowLt := by
    have hne := List.pairwise_map.mp hnd2
    exact ((catalogQueryResult_sorted r2).and hne)
  haveI : IsAntisymm (String × String) rowLt :=
    ⟨fun _ _ h1 h2 => absurd (strLe_antisymm h1.1 h2.1) h1.2⟩
  exact List.eq_of_perm_of_sorted hperm hs1 hs2

theorem catalogTables_eq_of_perm {r1 r2 : List (String × String)}
    (hp : r1.Perm r2) (hnd : (r1.map Prod.fst).Nodup) :
    catalogTables r1 = catalogTables r2 := by
  unfold catalogTables
  rw [catalogQueryResult_eq_of_perm hp hnd]

/-! ### Trace helpers -/

theorem lockStep_neutral (db : String) (b : Bool) : ∀ e : Event,
    e.kind ≠ .flushK → e.kind ≠ .unlockK → lockStep db b e = b
  | .connect _, _, _ => rfl
  | .sessionTimeout _ _, _, _ => rfl
  | .catalogQuery _, _, _ => rfl
  | .flush _ _, h1, _ => absurd rfl h1
  | .syncDone _, _, _ => rfl
  | .validated _, _, _ => rfl
  | .schemaExported _, _, _ => rfl
  | .snapshotCall _, _, _ => rfl
  | .unlockStmt _, _, h2 => absurd rfl h2
  | .closeConn _, _, _ => rfl

theorem foldl_lockStep_neutral (db : String) :
    ∀ (d : List Event) (b : Bool),
      (∀ e ∈ d, e.kind ≠ .flushK ∧ e.kind ≠ .unlockK) →
      d.foldl (lockStep db) b = b := by
  intro d
  induction d with
  | nil => intro b _; rfl
  | cons e d ih =>
    intro b h
    have he := h e (List.mem_cons_self e d)
    rw [List.foldl_cons, lockStep_neutral db b e he.1 he.2]
    exact ih b (fun x hx => h x (List.mem_cons_of_mem e hx))

theorem lockedInTrace_append (db : String) (t u : List Event) :
    lockedInTrace db (t ++ u) = u.foldl (lockStep db) (lockedInTrace db t) :=
  List.foldl_append _ _ t u

theorem lockedInTrace_append_neutral (db : String) (t u : List Event)
    (h : ∀ e ∈ u, e.kind ≠ .flushK ∧ e.kind ≠ .unlockK) :
    lockedInTrace db (t ++ u) = lockedInTrace db t := by
  rw [lockedInTrace_append, foldl_lockStep_neutral db u _ h]


theorem deltas_refl (s : BackupState) (ks : List EKind) : Deltas s s ks :=
  ⟨[], by simp, by simp⟩

theorem deltas_trans {s1 s2 s3 : BackupState} {ks : List EKind}
    (h1 : Deltas s1 s2 ks) (h2 : Deltas s2 s3 ks) : Deltas s1 s3 ks := by
  obtain ⟨d1, he1, hk1⟩ := h1
  obtain ⟨d2, he2, hk2⟩ := h2
  refine ⟨d1 ++ d2, by rw [he2, he1, List.append_assoc], ?_⟩
  intro e he
  rcases List.mem_append.mp he with h | h
  · exact hk1 e h
  · exact hk2 e h

theorem deltas_mono {s1 s2 : BackupState} {ks ks2 : List EKind}
    (h : Deltas s1 s2 ks) (hsub : ∀ k ∈ ks, k ∈ ks2) : Deltas s1 s2 ks2 := by
  obtain ⟨d, he, hk⟩ := h
  exact ⟨d, he, fun e hme => hsub _ (hk e hme)⟩

theorem deltas_snoc {s1 s2 : BackupState} {ks : List EKind}
    (h : Deltas s1 s2 ks) {s3 : BackupState} {e : Event}
    (hs3 : s3.events = s2.events ++ [e]) (hek : e.kind ∈ ks) :
    Deltas s1 s3 ks := by
  obtain ⟨d, he, hk⟩ := h
  refine ⟨d ++ [e], by rw [hs3, he, List.append_assoc], ?_⟩
  intro x hx
  rcases List.mem_append.mp hx with hx | hx
  · exact hk x hx
  · rw [List.mem_singleton.mp hx]; exact hek

theorem hasK_append (k : EKind) (t u : List Event) :
    hasK k (t ++ u) = (hasK k t || hasK k u) :=
  List.any_append

theorem hasK_false_of_deltas {s s2 : BackupState} {ks : List EKind} {k : EKind}
    (hd : Deltas s s2 ks) (hk : k ∉ ks) (h0 : hasK k s.events = false) :
    hasK k s2.events = false := by
  obtain ⟨d, he, hke⟩ := hd
  rw [he, hasK_append, h0, Bool.false_or]
  unfold hasK
  rw [List.any_eq_false]
  intro e hme
  have := hke e hme
  simp only [beq_iff_eq]
  intro hkk
  exact hk (hkk ▸ this)

theorem hasKDb_mono {s s2 : BackupState} {ks : List EKind}
    (hd : Deltas s s2 ks) {k : EKind} {db : String}
    (h : hasKDb k db s.events = true) : hasKDb k db s2.events = true := by
  obtain ⟨d, he, _⟩ := hd
  rw [he]
  unfold hasKDb at h ⊢
  rw [List.any_append, h, Bool.true_or]

theorem hasKDb_of_mem {k : EKind} {db : String} {tr : List Event} {e : Event}
    (hme : e ∈ tr) (hk : e.kind = k) (hdb : e.dbOf = some db) :
    hasKDb k db tr = true := by
  unfold hasKDb
  rw [List.any_eq_true]
  exact ⟨e, hme, by simp [hk, hdb]⟩

theorem lockedInTrace_of_deltas {s s2 : BackupState} {ks : List EKind}
    (hd : Deltas s s2 ks) (h1 : EKind.flushK ∉ ks) (h2 : EKind.unlockK ∉ ks)
    (db : String) : lockedInTrace db s2.events = lockedInTrace db s.events := by
  obtain ⟨d, he, hk⟩ := hd
  rw [he]
  refine lockedInTrace_append_neutral db _ d ?_
  intro e hme
  have hek := hk e hme
  constructor
  · intro hq; exact h1 (hq ▸ hek)
  · intro hq; exact h2 (hq ▸ hek)


theorem stateOk_of_neutral {s s2 : BackupState} (h : StateOk s)
    (hlk : s2.locked = s.locked) (hdbs : s2.databases = s.databases)
    {ks : List EKind} (hd : Deltas s s2 ks)
    (h1 : EKind.flushK ∉ ks) (h2 : EKind.unlockK ∉ ks) : StateOk s2 := by
  constructor
  · intro db
    rw [hlk, lockedInTrace_of_deltas hd h1 h2 db]
    exact h.1 db
  · intro db hdb
    rw [hlk] at hdb

    rw [hdbs]
    exact h.2 db hdb

theorem forall_mem_two {α : Type} {P : α → Prop} {a b : α}
    (ha : P a) (hb : P b) : ∀ x ∈ [a, b], P x := by
  intro x hx
  simp only [List.mem_cons, List.not_mem_nil, or_false] at hx
  rcases hx with rfl | rfl
  · exact ha
  · exact hb

theorem forall_mem_three {α : Type} {P : α → Prop} {a b c : α}
    (ha : P a) (hb : P b) (hc : P c) : ∀ x ∈ [a, b, c], P x := by
  intro x hx
  simp only [List.mem_cons, List.not_mem_nil, or_false] at hx
  rcases hx with rfl | rfl | rfl
  · exact ha
  · exact hb
  · exact hc

/-! ### `get_db` -/

theorem getDbR_fields (env : Env) (s : BackupState) (db : String) :
    (getDbR env s db).1.databases = s.databases ∧
    (getDbR env s db).1.locked = s.locked ∧
    (getDbR env s db).1.innodbTables = s.innodbTables ∧
    (getDbR env s db).1.myisamTables = s.myisamTables ∧
    (getDbR env s db).1.tableSchemas = s.tableSchemas ∧
    (getDbR env s db).1.dbBasePath = s.dbBasePath ∧
    (getDbR env s db).1.snapshotTriggerUrl = s.snapshotTriggerUrl ∧
    Deltas s (getDbR env s db).1 [.connectK, .timeoutK] := by
  unfold getDbR get_db
  by_cases h1 : db ∈ s.instances
  · by_cases h2 : env.usable db = true
    · rw [if_pos h1, if_pos h2]
      exact ⟨rfl, rfl, rfl, rfl, rfl, rfl, rfl, deltas_refl s _⟩
    · rw [if_pos h1, if_neg h2]
      exact ⟨rfl, rfl, rfl, rfl, rfl, rfl, rfl, deltas_refl s _⟩
  · by_cases h3 : db ∈ s.databases
    · rw [if_neg h1, if_pos h3]
      refine ⟨rfl, rfl, rfl, rfl, rfl, rfl, rfl, ?_⟩
      refine ⟨[.connect db, .sessionTimeout db 14400], rfl, forall_mem_two ?_ ?_⟩
      · simp [Event.kind]
      · simp [Event.kind]
    · rw [if_neg h1, if_neg h3]
      exact ⟨rfl, rfl, rfl, rfl, rfl, rfl, rfl, deltas_refl s _⟩

theorem getDbR_none {env : Env} {s : BackupState} {db : String}
    (hu : ∀ d, env.usable d = true) (hdb : db ∈ s.databases) :
    (getDbR env s db).2 = none := by
  unfold getDbR get_db
  by_cases h1 : db ∈ s.instances
  · rw [if_pos h1, if_pos (hu db)]
  · rw [if_neg h1, if_pos hdb]

theorem getDbR_stateOk (env : Env) (s : BackupState) (db : String)
    (h : StateOk s) : StateOk (getDbR env s db).1 := by
  obtain ⟨hdbs, hlk, _, _, _, _, _, hd⟩ := getDbR_fields env s db
  exact stateOk_of_neutral h hlk hdbs hd (by simp) (by simp)

/-! ### `fetch_table_info` per database -/

theorem fetch_db_spec (env : Env) (s : BackupState) (db : String) :
    (fetch_table_info_db env s db).1.databases = s.databases ∧
    (fetch_table_info_db env s db).1.dbBasePath = s.dbBasePath ∧
    (fetch_table_info_db env s db).1.locked = s.locked ∧
    Deltas s (fetch_table_info_db env s db).1 [.connectK, .timeoutK, .catalogK] := by
  obtain ⟨hdbs, hlk, _, _, _, hbp, _, hd⟩ := getDbR_fields env s db
  unfold fetch_table_info_db
  rcases hg : getDbR env s db with ⟨s1, e1⟩
  rw [hg] at hdbs hlk hbp hd
  have hd3 : Deltas s s1 [EKind.connectK, EKind.timeoutK, EKind.catalogK] :=
    deltas_mono hd (forall_mem_two (by simp) (by simp))
  cases e1 with
  | none =>
    simp only [afterOk]
    refine ⟨hdbs, hbp, hlk, ?_⟩
    exact deltas_snoc hd3 rfl (by simp [Event.kind])
  | some e =>
    simp only [afterOk]
    exact ⟨hdbs, hbp, hlk, hd3⟩

theorem fetch_db_none {env : Env} {s : BackupState} {db : String}
    (hu : ∀ d, env.usable d = true) (hdb : db ∈ s.databases) :
    (fetch_table_info_db env s db).2 = none := by
  unfold fetch_table_info_db
  have hn := getDbR_none hu hdb
  rcases hg : getDbR env s db with ⟨s1, e1⟩
  rw [hg] at hn
  cases e1 with
  | none => simp [afterOk]
  | some e => exact absurd hn (by simp)

theorem fetch_db_stateOk (env : Env) (s : BackupState) (db : String)
    (h : StateOk s) : StateOk (fetch_table_info_db env s db).1 := by
  obtain ⟨hdbs, _, hlk, hd⟩ := fetch_db_spec env s db
  exact stateOk_of_neutral h hlk hdbs hd (by simp) (by simp)

/-! ### `flush_tables` per database -/

theorem flush_db_spec (env : Env) (s : BackupState) (db : String) :
    (flush_tables_db env s db).1.databases = s.databases ∧
    (flush_tables_db env s db).1.dbBasePath = s.dbBasePath ∧
    (flush_tables_db env s db).1.innodbTables = s.innodbTables ∧
    (flush_tables_db env s db).1.myisamTables = s.myisamTables ∧
    (flush_tables_db env s db).1.tableSchemas = s.tableSchemas ∧
    Deltas s (flush_tables_db env s db).1 [.connectK, .timeoutK, .flushK] := by
  obtain ⟨hdbs, hlk, hinn, hmy, hts, hbp, _, hd⟩ := getDbR_fields env s db
  unfold flush_tables_db
  rcases hg : getDbR env s db with ⟨s1, e1⟩
  rw [hg] at hdbs hlk hinn hmy hts hbp hd
  have hd3 : Deltas s s1 [EKind.connectK, EKind.timeoutK, EKind.flushK] :=
    deltas_mono hd (forall_mem_two (by simp) (by simp))
  cases e1 with
  | none =>
    simp only [afterOk]
    by_cases hfl : env.flushOk db = true
    · rw [if_pos hfl]
      exact ⟨hdbs, hbp, hinn, hmy, hts, deltas_snoc hd3 rfl (by simp [Event.kind])⟩
    · rw [if_neg hfl]
      exact ⟨hdbs, hbp, hinn, hmy, hts, hd3⟩
  | some e =>
    simp only [afterOk]
    exact ⟨hdbs, hbp, hinn, hmy, hts, hd3⟩

theorem flush_db_locked_other (env : Env) (s : BackupState) (db db2 : String)
    (hne : db2 ≠ db) :
    (flush_tables_db env s db).1.locked db2 = s.locked db2 := by
  obtain ⟨_, hlk, _, _, _, _, _, _⟩ := getDbR_fields env s db
  unfold flush_tables_db
  rcases hg : getDbR env s db with ⟨s1, e1⟩
  rw [hg] at hlk
  cases e1 with
  | none =>
    simp only [afterOk]
    by_cases hfl : env.flushOk db = true
    · rw [if_pos hfl]
      show updateFn s1.locked db true db2 = s.locked db2
      rw [updateFn, if_neg hne]
      exact congrFun hlk db2
    · rw [if_neg hfl]
      exact congrFun hlk db2
  | some e =>
    simp only [afterOk]
    exact congrFun hlk db2

theorem flush_db_locked_mono (env : Env) (s : BackupState) (db db2 : String)
    (h : s.locked db2 = true) :
    (flush_tables_db env s db).1.locked db2 = true := by
  obtain ⟨_, hlk, _, _, _, _, _, _⟩ := getDbR_fields env s db
  unfold flush_tables_db
  rcases hg : getDbR env s db with ⟨s1, e1⟩
  rw [hg] at hlk
  cases e1 with
  | none =>
    simp only [afterOk]
    by_cases hfl : env.flushOk db = true
    · rw [if_pos hfl]
      show updateFn s1.locked db true db2 = true
      rw [updateFn]
      by_cases he : db2 = db
      · rw [if_pos he]
      · rw [if_neg he, congrFun hlk db2]
        exact h
    · rw [if_neg hfl]
      rw [congrFun hlk db2]
      exact h
  | some e =>
    simp only [afterOk]
    rw [congrFun hlk db2]
    exact h

theorem flush_db_success (env : Env) (s : BackupState) (db : String)
    (hs : (flush_tables_db env s db).2 = none) :
    (flush_tables_db env s db).1.locked db = true ∧
    hasKDb .flushK db (flush_tables_db env s db).1.events = true := by
  unfold flush_tables_db at hs ⊢
  rcases hg : getDbR env s db with ⟨s1, e1⟩
  rw [hg] at hs
  cases e1 with
  | none =>
    simp only [afterOk] at hs ⊢
    by_cases hfl : env.flushOk db = true
    · rw [if_pos hfl]
      constructor
      · show updateFn s1.locked db true db = true
        rw [updateFn, if_pos rfl]
      · show hasKDb EKind.flushK db
          (s1.events ++ [Event.flush db (flushStatement (s1.innodbTables db ++ s1.myisamTables db))]) = true
        exact hasKDb_of_mem (List.mem_append_right _ (List.mem_singleton_self _)) rfl rfl
    · rw [if_neg hfl] at hs
      exact absurd hs (by simp)
  | some e =>
    simp only [afterOk] at hs
    exact absurd hs (by simp)

theorem flush_db_fails {env : Env} {s : BackupState} {db : String}
    (hu : ∀ d, env.usable d = true) (hdb : db ∈ s.databases)
    (hf : env.flushOk db = false) :
    (flush_tables_db env s db).2 = some (.lockAcquisitionError db) := by
  unfold flush_tables_db
  have hn := getDbR_none hu hdb
  rcases hg : getDbR env s db with ⟨s1, e1⟩
  rw [hg] at hn
  cases e1 with
  | none =>
    simp only [afterOk]
    rw [if_neg (by simp [hf])]
  | some e => exact absurd hn (by simp)

theorem flush_db_none {env : Env} {s : BackupState} {db : String}
    (hu : ∀ d, env.usable d = true) (hdb : db ∈ s.databases)
    (hf : env.flushOk db = true) :
    (flush_tables_db env s db).2 = none := by
  unfold flush_tables_db
  have hn := getDbR_none hu hdb
  rcases hg : getDbR env s db with ⟨s1, e1⟩
  rw [hg] at hn
  cases e1 with
  | none =>
    simp only [afterOk]
    rw [if_pos hf]
  | some e => exact absurd hn (by simp)

theorem flush_db_stateOk (env : Env) (s : BackupState) (db : String)
    (h : StateOk s) (hdb : db ∈ s.databases) :
    StateOk (flush_tables_db env s db).1 := by
  have hok1 : StateOk (getDbR env s db).1 := getDbR_stateOk env s db h
  obtain ⟨hdbs, hlk, _, _, _, _, _, hd⟩ := getDbR_fields env s db
  unfold flush_tables_db
  rcases hg : getDbR env s db with ⟨s1, e1⟩
  rw [hg] at hok1 hdbs hlk hd
  cases e1 with
  | none =>
    simp only [afterOk]
    by_cases hfl : env.flushOk db = true
    · rw [if_pos hfl]
      constructor
      · intro db2
        show updateFn s1.locked db true db2 =
          lockedInTrace db2 (s1.events ++
            [Event.flush db (flushStatement (s1.innodbTables db ++ s1.myisamTables db))])
        rw [lockedInTrace_append]
        simp only [List.foldl_cons, List.foldl_nil, lockStep]
        rw [updateFn]
        by_cases he : db2 = db
        · rw [if_pos he, if_pos he.symm]
        · rw [if_neg he, if_neg (fun q => he q.symm)]
          exact hok1.1 db2
      · intro db2 hdb2
        show db2 ∈ s1.databases
        have hdb2a : updateFn s1.locked db true db2 = true := hdb2
        rw [updateFn] at hdb2a
        by_cases he : db2 = db
        · rw [hdbs, he]
          exact hdb
        · rw [if_neg he] at hdb2a
          exact hok1.2 db2 hdb2a
    · rw [if_neg hfl]
      exact hok1
  | some e =>
    simp only [afterOk]
    exact hok1

/-! ### Generic loop lemmas -/

theorem forall_mem_one {α : Type} {P : α → Prop} {a : α}
    (ha : P a) : ∀ x ∈ [a], P x := by
  intro x hx
  simp only [List.mem_singleton] at hx
  rw [hx]
  exact ha

theorem foldDbs_preserve {α : Type} (f : BackupState → α)
    (g : BackupState → String → BackupState × Option AgentError)
    (hf : ∀ s db, f (g s db).1 = f s) :
    ∀ (dbs : List String) (s : BackupState), f (foldDbs g dbs s).1 = f s := by
  intro dbs
  induction dbs with
  | nil => intro s; rfl
  | cons db rest ih =>
    intro s
    have hstep := hf s db
    rcases hgd : g s db with ⟨s2, e2⟩
    rw [hgd] at hstep
    cases e2 with
    | none =>
      have heq : foldDbs g (db :: rest) s = foldDbs g rest s2 := by
        simp [foldDbs, hgd]
      rw [heq, ih s2, hstep]
    | some e =>
      have heq : foldDbs g (db :: rest) s = (s2, some e) := by
        simp [foldDbs, hgd]
      rw [heq]
      exact hstep

theorem foldDbs_deltas (g : BackupState → String → BackupState × Option AgentError)
    (ks : List EKind) (hg : ∀ s db, Deltas s (g s db).1 ks) :
    ∀ (dbs : List String) (s : BackupState), Deltas s (foldDbs g dbs s).1 ks := by
  intro dbs
  induction dbs with
  | nil => intro s; exact deltas_refl s ks
  | cons db rest ih =>
    intro s
    have hstep := hg s db
    rcases hgd : g s db with ⟨s2, e2⟩
    rw [hgd] at hstep
    cases e2 with
    | none =>
      have heq : foldDbs g (db :: rest) s = foldDbs g rest s2 := by
        simp [foldDbs, hgd]
      rw [heq]
      exact deltas_trans hstep (ih s2)
    | some e =>
      have heq : foldDbs g (db :: rest) s = (s2, some e) := by
        simp [foldDbs, hgd]
      rw [heq]
      exact hstep

theorem foldDbs_induct (g : BackupState → String → BackupState × Option AgentError)
    (P : BackupState → Prop)
    (hg : ∀ s db, P s → db ∈ s.databases → P (g s db).1)
    (hdbs : ∀ s db, (g s db).1.databases = s.databases) :
    ∀ (dbs : List String) (s : BackupState),
      (∀ d ∈ dbs, d ∈ s.databases) → P s → P (foldDbs g dbs s).1 := by
  intro dbs
  induction dbs with
  | nil => intro s _ hp; exact hp
  | cons db rest ih =>
    intro s hsub hp
    have hstep := hg s db hp (hsub db (List.mem_cons_self db rest))
    have hdbeq := hdbs s db
    rcases hgd : g s db with ⟨s2, e2⟩
    rw [hgd] at hstep hdbeq
    cases e2 with
    | none =>
      have heq : foldDbs g (db :: rest) s = foldDbs g rest s2 := by
        simp [foldDbs, hgd]
      rw [heq]
      refine ih s2 ?_ hstep
      intro d hd
      rw [hdbeq]
      exact hsub d (List.mem_cons_of_mem db hd)
    | some e =>
      have heq : foldDbs g (db :: rest) s = (s2, some e) := by
        simp [foldDbs, hgd]
      rw [heq]
      exact hstep

theorem foldDbs_none (g : BackupState → String → BackupState × Option AgentError)
    (hg : ∀ s db, db ∈ s.databases → (g s db).2 = none)
    (hdbs : ∀ s db, (g s db).1.databases = s.databases) :
    ∀ (dbs : List String) (s : BackupState),
      (∀ d ∈ dbs, d ∈ s.databases) → (foldDbs g dbs s).2 = none := by
  intro dbs
  induction dbs with
  | nil => intro s _; rfl
  | cons db rest ih =>
    intro s hsub
    have hstep := hg s db (hsub db (List.mem_cons_self db rest))
    have hdbeq := hdbs s db
    rcases hgd : g s db with ⟨s2, e2⟩
    rw [hgd] at hstep hdbeq
    cases e2 with
    | none =>
      have heq : foldDbs g (db :: rest) s = foldDbs g rest s2 := by
        simp [foldDbs, hgd]
      rw [heq]
      refine ih s2 ?_
      intro d hd
      rw [hdbeq]
      exact hsub d (List.mem_cons_of_mem db hd)
    | some e => exact absurd hstep (by simp)

theorem foldDbs_each_event (g : BackupState → String → BackupState × Option AgentError)
    (ks : List EKind) (k : EKind)
    (hdel : ∀ s db, Deltas s (g s db).1 ks)
    (hev : ∀ s db, (g s db).2 = none → hasKDb k db (g s db).1.events = true) :
    ∀ (dbs : List String) (s : BackupState), (foldDbs g dbs s).2 = none →
      ∀ db ∈ dbs, hasKDb k db (foldDbs g dbs s).1.events = true := by
  intro dbs
  induction dbs with
  | nil => intro s _ db hdb; exact absurd hdb (List.not_mem_nil db)
  | cons db0 rest ih =>
    intro s hnone db hdb
    have hevt := hev s db0
    rcases hgd : g s db0 with ⟨s2, e2⟩
    rw [hgd] at hevt
    cases e2 with
    | none =>
      have heq : foldDbs g (db0 :: rest) s = foldDbs g rest s2 := by
        simp [foldDbs, hgd]
      rw [heq] at hnone ⊢
      rcases List.mem_cons.mp hdb with rfl | hdb2
      · exact hasKDb_mono (foldDbs_deltas g ks hdel rest s2) (hevt rfl)
      · exact ih s2 hnone db hdb2
    | some e =>
      have heq : foldDbs g (db0 :: rest) s = (s2, some e) := by
        simp [foldDbs, hgd]
      rw [heq] at hnone
      exact absurd hnone (by simp)

/-! ### The remaining per-database bodies -/

theorem sync_db_eq (env : Env) (s : BackupState) (db : String) :
    flush_changes_to_disk_db env s db =
      ({ s with events := s.events ++ [.syncDone db] }, none) := rfl

theorem sync_db_deltas (env : Env) (s : BackupState) (db : String) :
    Deltas s (flush_changes_to_disk_db env s db).1 [.syncK] :=
  ⟨[.syncDone db], rfl, forall_mem_one (by simp [Event.kind])⟩

theorem sync_db_event (env : Env) (s : BackupState) (db : String) :
    hasKDb .syncK db (flush_changes_to_disk_db env s db).1.events = true :=
  hasKDb_of_mem (List.mem_append_right _ (List.mem_singleton_self _)) rfl rfl

theorem sync_db_stateOk (env : Env) (s : BackupState) (db : String)
    (h : StateOk s) : StateOk (flush_changes_to_disk_db env s db).1 :=
  stateOk_of_neutral h rfl rfl (sync_db_deltas env s db) (by simp) (by simp)

theorem validate_db_cases (env : Env) (s : BackupState) (db : String) :
    (validate_exportable_files_db env s db).1 = s ∨
    (validate_exportable_files_db env s db) =
      ({ s with events := s.events ++ [.validated db] }, none) := by
  rcases hm1 : firstMissingInnodb (s.innodbTables db) (env.listDir (dbDirectory s db)) with _ | t1
  · rcases hm2 : firstMissingMyisam (s.myisamTables db) (env.listDir (dbDirectory s db)) with _ | t2
    · right
      simp [validate_exportable_files_db, hm1, hm2]
    · left
      simp [validate_exportable_files_db, hm1, hm2]
  · left
    simp [validate_exportable_files_db, hm1]

theorem validate_db_deltas (env : Env) (s : BackupState) (db : String) :
    Deltas s (validate_exportable_files_db env s db).1 [.validatedK] := by
  rcases validate_db_cases env s db with h | h
  · rw [h]; exact deltas_refl s _
  · rw [h]
    exact ⟨[.validated db], rfl, forall_mem_one (by simp [Event.kind])⟩

theorem validate_db_fields (env : Env) (s : BackupState) (db : String) :
    (validate_exportable_files_db env s db).1.databases = s.databases ∧
    (validate_exportable_files_db env s db).1.dbBasePath = s.dbBasePath ∧
    (validate_exportable_files_db env s db).1.locked = s.locked ∧
    (validate_exportable_files_db env s db).1.innodbTables = s.innodbTables ∧
    (validate_exportable_files_db env s db).1.myisamTables = s.myisamTables ∧
    (validate_exportable_files_db env s db).1.tableSchemas = s.tableSchemas := by
  rcases validate_db_cases env s db with h | h
  · rw [h]; exact ⟨rfl, rfl, rfl, rfl, rfl, rfl⟩
  · rw [h]; exact ⟨rfl, rfl, rfl, rfl, rfl, rfl⟩

theorem validate_db_event (env : Env) (s : BackupState) (db : String)
    (hs : (validate_exportable_files_db env s db).2 = none) :
    hasKDb .validatedK db (validate_exportable_files_db env s db).1.events = true := by
  rcases hm1 : firstMissingInnodb (s.innodbTables db) (env.listDir (dbDirectory s db)) with _ | t1
  · rcases hm2 : firstMissingMyisam (s.myisamTables db) (env.listDir (dbDirectory s db)) with _ | t2
    · have he : (validate_exportable_files_db env s db).1.events = s.events ++ [.validated db] := by
        simp [validate_exportable_files_db, hm1, hm2]
      rw [he]
      exact hasKDb_of_mem (List.mem_append_right _ (List.mem_singleton_self _)) rfl rfl
    · have : (validate_exportable_files_db env s db).2 ≠ none := by
        simp [validate_exportable_files_db, hm1, hm2]
      exact absurd hs this
  · have : (validate_exportable_files_db env s db).2 ≠ none := by
      simp [validate_exportable_files_db, hm1]
    exact absurd hs this

theorem validate_db_stateOk (env : Env) (s : BackupState) (db : String)
    (h : StateOk s) : StateOk (validate_exportable_files_db env s db).1 := by
  obtain ⟨hdbs, _, hlk, _, _, _⟩ := validate_db_fields env s db
  exact stateOk_of_neutral h hlk hdbs (validate_db_deltas env s db) (by simp) (by simp)

theorem export_db_fields (env : Env) (s : BackupState) (db : String) :
    (export_table_schemas_db env s db).1.databases = s.databases ∧
    (export_table_schemas_db env s db).1.dbBasePath = s.dbBasePath ∧
    (export_table_schemas_db env s db).1.locked = s.locked ∧
    (export_table_schemas_db env s db).1.innodbTables = s.innodbTables ∧
    (export_table_schemas_db env s db).1.myisamTables = s.myisamTables := by
  unfold export_table_schemas_db
  cases env.dumpOutput db with
  | some out => exact ⟨rfl, rfl, rfl, rfl, rfl⟩
  | none => exact ⟨rfl, rfl, rfl, rfl, rfl⟩

theorem export_db_deltas (env : Env) (s : BackupState) (db : String) :
    Deltas s (export_table_schemas_db env s db).1 [.schemaK] := by
  unfold export_table_schemas_db
  cases env.dumpOutput db with
  | some out =>
    exact ⟨[.schemaExported db], rfl, forall_mem_one (by simp [Event.kind])⟩
  | none => exact deltas_refl s _

theorem export_db_event (env : Env) (s : BackupState) (db : String)
    (hs : (export_table_schemas_db env s db).2 = none) :
    hasKDb .schemaK db (export_table_schemas_db env s db).1.events = true := by
  unfold export_table_schemas_db at hs ⊢
  rcases hc : env.dumpOutput db with _ | out
  · rw [hc] at hs
    exact Option.noConfusion hs
  · exact hasKDb_of_mem (List.mem_append_right _ (List.mem_singleton_self _)) rfl rfl

theorem export_db_stateOk (env : Env) (s : BackupState) (db : String)
    (h : StateOk s) : StateOk (export_table_schemas_db env s db).1 := by
  obtain ⟨hdbs, _, hlk, _, _⟩ := export_db_fields env s db
  exact stateOk_of_neutral h hlk hdbs (export_db_deltas env s db) (by simp) (by simp)

theorem create_snapshot_fst (env : Env) (s : BackupState) :
    (create_snapshot env s).1 =
      { s with events := s.events ++ [.snapshotCall s.snapshotTriggerUrl] } := rfl

theorem create_snapshot_snd (env : Env) (s : BackupState) :
    (create_snapshot env s).2 =
      if env.snapshotOk then none else some .snapshotTriggerError := rfl

theorem create_snapshot_deltas (env : Env) (s : BackupState) :
    Deltas s (create_snapshot env s).1 [.snapshotK] :=
  ⟨[.snapshotCall s.snapshotTriggerUrl], rfl, forall_mem_one (by simp [Event.kind])⟩

theorem create_snapshot_stateOk (env : Env) (s : BackupState)
    (h : StateOk s) : StateOk (create_snapshot env s).1 :=
  stateOk_of_neutral h rfl rfl (create_snapshot_deltas env s) (by simp) (by simp)


/-! ### `_unlock_tables`, `__del__` bodies -/

theorem unlock_db_spec (env : Env) (s : BackupState) (db : String) :
    (unlock_tables_db env s db).1.databases = s.databases ∧
    (unlock_tables_db env s db).1.dbBasePath = s.dbBasePath ∧
    Deltas s (unlock_tables_db env s db).1 [.connectK, .timeoutK, .unlockK] := by
  obtain ⟨hdbs, _, _, _, _, hbp, _, hd⟩ := getDbR_fields env s db
  unfold unlock_tables_db
  rcases hg : getDbR env s db with ⟨s1, e1⟩
  rw [hg] at hdbs hbp hd
  have hd3 : Deltas s s1 [EKind.connectK, EKind.timeoutK, EKind.unlockK] :=
    deltas_mono hd (forall_mem_two (by simp) (by simp))
  cases e1 with
  | none =>
    simp only [afterOk]
    exact ⟨hdbs, hbp, deltas_snoc hd3 rfl (by simp [Event.kind])⟩
  | some e =>
    simp only [afterOk]
    exact ⟨hdbs, hbp, hd3⟩

theorem unlock_db_none {env : Env} {s : BackupState} {db : String}
    (hu : ∀ d, env.usable d = true) (hdb : db ∈ s.databases) :
    (unlock_tables_db env s db).2 = none := by
  unfold unlock_tables_db
  have hn := getDbR_none hu hdb
  rcases hg : getDbR env s db with ⟨s1, e1⟩
  rw [hg] at hn
  cases e1 with
  | none => simp [afterOk]
  | some e => exact absurd hn (by simp)

theorem unlock_db_locked_false (env : Env) (s : BackupState) (db : String)
    (hs : (unlock_tables_db env s db).2 = none) :
    (unlock_tables_db env s db).1.locked db = false := by
  unfold unlock_tables_db at hs ⊢
  rcases hg : getDbR env s db with ⟨s1, e1⟩
  rw [hg] at hs
  cases e1 with
  | none =>
    simp only [afterOk]
    show updateFn s1.locked db false db = false
    rw [updateFn, if_pos rfl]
  | some e =>
    simp only [afterOk] at hs
    exact absurd hs (by simp)

theorem unlock_db_locked_le (env : Env) (s : BackupState) (db db2 : String)
    (h : (unlock_tables_db env s db).1.locked db2 = true) : s.locked db2 = true := by
  obtain ⟨_, hlk, _, _, _, _, _, _⟩ := getDbR_fields env s db
  unfold unlock_tables_db at h
  rcases hg : getDbR env s db with ⟨s1, e1⟩
  rw [hg] at hlk h
  cases e1 with
  | none =>
    simp only [afterOk] at h
    have h2 : updateFn s1.locked db false db2 = true := h
    rw [updateFn] at h2
    by_cases he : db2 = db
    · rw [if_pos he] at h2
      exact absurd h2 (by simp)
    · rw [if_neg he] at h2
      rw [← congrFun hlk db2]
      exact h2
  | some e =>
    simp only [afterOk] at h
    rw [← congrFun hlk db2]
    exact h

theorem unlock_db_stateOk (env : Env) (s : BackupState) (db : String)
    (h : StateOk s) : StateOk (unlock_tables_db env s db).1 := by
  have hok1 : StateOk (getDbR env s db).1 := getDbR_stateOk env s db h
  obtain ⟨hdbs, hlk, _, _, _, _, _, _⟩ := getDbR_fields env s db
  unfold unlock_tables_db
  rcases hg : getDbR env s db with ⟨s1, e1⟩
  rw [hg] at hok1 hdbs hlk
  cases e1 with
  | none =>
    simp only [afterOk]
    constructor
    · intro db2
      show updateFn s1.locked db false db2 =
        lockedInTrace db2 (s1.events ++ [Event.unlockStmt db])
      rw [lockedInTrace_append]
      simp only [List.foldl_cons, List.foldl_nil, lockStep]
      rw [updateFn]
      by_cases he : db2 = db
      · rw [if_pos he, if_pos he.symm]
      · rw [if_neg he, if_neg (fun q => he q.symm)]
        exact hok1.1 db2
    · intro db2 hdb2
      show db2 ∈ s1.databases
      have hdb2a : updateFn s1.locked db false db2 = true := hdb2
      rw [updateFn] at hdb2a
      by_cases he : db2 = db
      · rw [if_pos he] at hdb2a
        exact absurd hdb2a (by simp)
      · rw [if_neg he] at hdb2a
        exact hok1.2 db2 hdb2a
  | some e =>
    simp only [afterOk]
    exact hok1

theorem del_unlock_db_spec (env : Env) (s : BackupState) (db : String) :
    (del_unlock_db env s db).1.databases = s.databases ∧
    (del_unlock_db env s db).1.dbBasePath = s.dbBasePath ∧
    Deltas s (del_unlock_db env s db).1 [.connectK, .timeoutK, .unlockK] := by
  unfold del_unlock_db
  by_cases h : s.locked db = true
  · rw [if_pos h]
    exact unlock_db_spec env s db
  · rw [if_neg h]
    exact ⟨rfl, rfl, deltas_refl s _⟩

theorem del_unlock_db_none {env : Env} {s : BackupState} {db : String}
    (hu : ∀ d, env.usable d = true) (hdb : db ∈ s.databases) :
    (del_unlock_db env s db).2 = none := by
  unfold del_unlock_db
  by_cases h : s.locked db = true
  · rw [if_pos h]
    exact unlock_db_none hu hdb
  · rw [if_neg h]

theorem del_unlock_db_locked_false (env : Env) (s : BackupState) (db : String)
    (hs : (del_unlock_db env s db).2 = none) :
    (del_unlock_db env s db).1.locked db = false := by
  unfold del_unlock_db at hs ⊢
  by_cases h : s.locked db = true
  · rw [if_pos h] at hs ⊢
    exact unlock_db_locked_false env s db hs
  · rw [if_neg h]
    exact Bool.not_eq_true _ |>.mp h

theorem del_unlock_db_locked_le (env : Env) (s : BackupState) (db db2 : String)
    (h : (del_unlock_db env s db).1.locked db2 = true) : s.locked db2 = true := by
  unfold del_unlock_db at h
  by_cases hg : s.locked db = true
  · rw [if_pos hg] at h
    exact unlock_db_locked_le env s db db2 h
  · rw [if_neg hg] at h
    exact h

theorem del_unlock_db_stateOk (env : Env) (s : BackupState) (db : String)
    (h : StateOk s) : StateOk (del_unlock_db env s db).1 := by
  unfold del_unlock_db
  by_cases hg : s.locked db = true
  · rw [if_pos hg]
    exact unlock_db_stateOk env s db h
  · rw [if_neg hg]
    exact h

theorem close_db_fields (env : Env) (s : BackupState) (db : String) :
    (close_db env s db).1.databases = s.databases ∧
    (close_db env s db).1.locked = s.locked ∧
    Deltas s (close_db env s db).1 [.connectK, .timeoutK, .closeK] := by
  obtain ⟨hdbs, hlk, _, _, _, _, _, hd⟩ := getDbR_fields env s db
  unfold close_db
  rcases hg : getDbR env s db with ⟨s1, e1⟩
  rw [hg] at hdbs hlk hd
  have hd3 : Deltas s s1 [EKind.connectK, EKind.timeoutK, EKind.closeK] :=
    deltas_mono hd (forall_mem_two (by simp) (by simp))
  cases e1 with
  | none =>
    simp only [afterOk]
    exact ⟨hdbs, hlk, deltas_snoc hd3 rfl (by simp [Event.kind])⟩
  | some e =>
    simp only [afterOk]
    exact ⟨hdbs, hlk, hd3⟩

theorem close_db_stateOk (env : Env) (s : BackupState) (db : String)
    (h : StateOk s) : StateOk (close_db env s db).1 := by
  obtain ⟨hdbs, hlk, hd⟩ := close_db_fields env s db
  exact stateOk_of_neutral h hlk hdbs hd (by simp) (by simp)

/-! ### `flush_tables` loop facts -/

theorem flush_fold_locked_mono (env : Env) (db : String) :
    ∀ (dbs : List String) (s : BackupState), s.locked db = true →
      (foldDbs (flush_tables_db env) dbs s).1.locked db = true := by
  intro dbs
  induction dbs with
  | nil => intro s h; exact h
  | cons db0 rest ih =>
    intro s h
    have hstep := flush_db_locked_mono env s db0 db h
    rcases hgd : flush_tables_db env s db0 with ⟨s2, e2⟩
    rw [hgd] at hstep
    cases e2 with
    | none =>
      have heq : foldDbs (flush_tables_db env) (db0 :: rest) s =
          foldDbs (flush_tables_db env) rest s2 := by
        simp [foldDbs, hgd]
      rw [heq]
      exact ih s2 hstep
    | some e =>
      have heq : foldDbs (flush_tables_db env) (db0 :: rest) s = (s2, some e) := by
        simp [foldDbs, hgd]
      rw [heq]
      exact hstep

theorem flush_fold_locked_true (env : Env) :
    ∀ (dbs : List String) (s : BackupState),
      (foldDbs (flush_tables_db env) dbs s).2 = none →
      ∀ db ∈ dbs, (foldDbs (flush_tables_db env) dbs s).1.locked db = true := by
  intro dbs
  induction dbs with
  | nil => intro s _ db hdb; exact absurd hdb (List.not_mem_nil db)
  | cons db0 rest ih =>
    intro s hnone db hdb
    have hsucc := flush_db_success env s db0
    rcases hgd : flush_tables_db env s db0 with ⟨s2, e2⟩
    rw [hgd] at hsucc
    cases e2 with
    | none =>
      have heq : foldDbs (flush_tables_db env) (db0 :: rest) s =
          foldDbs (flush_tables_db env) rest s2 := by
        simp [foldDbs, hgd]
      rw [heq] at hnone ⊢
      rcases List.mem_cons.mp hdb with rfl | hdb2
      · exact flush_fold_locked_mono env db rest s2 (hsucc rfl).1
      · exact ih s2 hnone db hdb2
    | some e =>
      have heq : foldDbs (flush_tables_db env) (db0 :: rest) s = (s2, some e) := by
        simp [foldDbs, hgd]
      rw [heq] at hnone
      exact absurd hnone (by simp)

theorem flush_fold_fails (env : Env) (hu : ∀ d, env.usable d = true) :
    ∀ (dbs : List String) (s : BackupState),
      (∀ d ∈ dbs, d ∈ s.databases) → (∃ db ∈ dbs, env.flushOk db = false) →
      (foldDbs (flush_tables_db env) dbs s).2 ≠ none := by
  intro dbs
  induction dbs with
  | nil =>
    intro s _ h
    rcases h with ⟨db, hm, _⟩
    exact absurd hm (List.not_mem_nil db)
  | cons db0 rest ih =>
    intro s hsub hex
    by_cases h0 : env.flushOk db0 = true
    · have hn := flush_db_none hu (hsub db0 (List.mem_cons_self db0 rest)) h0
      obtain ⟨hdbeq, _, _, _, _, _⟩ := flush_db_spec env s db0
      rcases hgd : flush_tables_db env s db0 with ⟨s2, e2⟩
      rw [hgd] at hn hdbeq
      cases e2 with
      | none =>
        have heq : foldDbs (flush_tables_db env) (db0 :: rest) s =
            foldDbs (flush_tables_db env) rest s2 := by
          simp [foldDbs, hgd]
        rw [heq]
        refine ih s2 ?_ ?_
        · intro d hd
          rw [hdbeq]
          exact hsub d (List.mem_cons_of_mem db0 hd)
        · rcases hex with ⟨db, hm, hf⟩
          rcases List.mem_cons.mp hm with rfl | hm2
          · exact absurd h0 (by rw [hf]; simp)
          · exact ⟨db, hm2, hf⟩
      | some e => exact absurd hn (by simp)
    · have hf0 : env.flushOk db0 = false := Bool.not_eq_true _ |>.mp h0
      have hfl := flush_db_fails hu (hsub db0 (List.mem_cons_self db0 rest)) hf0
      rcases hgd : flush_tables_db env s db0 with ⟨s2, e2⟩
      rw [hgd] at hfl
      cases e2 with
      | none => exact absurd hfl (by simp)
      | some e =>
        have heq : foldDbs (flush_tables_db env) (db0 :: rest) s = (s2, some e) := by
          simp [foldDbs, hgd]
        rw [heq]
        simp

/-! ### Step-level facts -/

theorem afterOk_pres (P : BackupState → Prop) (r : BackupState × Option AgentError)
    (k : BackupState → BackupState × Option AgentError)
    (h1 : P r.1) (h2 : ∀ s, P s → P (k s).1) : P (afterOk r k).1 := by
  rcases r with ⟨s, e⟩
  cases e with
  | none => exact h2 s h1
  | some e => exact h1

theorem close_db_none {env : Env} {s : BackupState} {db : String}
    (hu : ∀ d, env.usable d = true) (hdb : db ∈ s.databases) :
    (close_db env s db).2 = none := by
  unfold close_db
  have hn := getDbR_none hu hdb
  rcases hg : getDbR env s db with ⟨s1, e1⟩
  rw [hg] at hn
  cases e1 with
  | none => simp [afterOk]
  | some e => exact absurd hn (by simp)

theorem fetch_step_stateOk (env : Env) (s : BackupState) (h : StateOk s) :
    StateOk (fetch_table_info env s).1 :=
  foldDbs_induct _ StateOk (fun s2 db hp _ => fetch_db_stateOk env s2 db hp)
    (fun s2 db => (fetch_db_spec env s2 db).1) s.databases s (fun _ hd => hd) h

theorem fetch_step_deltas (env : Env) (s : BackupState) :
    Deltas s (fetch_table_info env s).1 [.connectK, .timeoutK, .catalogK] :=
  foldDbs_deltas _ _ (fun s2 db => (fetch_db_spec env s2 db).2.2.2) s.databases s

theorem fetch_step_none (env : Env) (s : BackupState) (hu : ∀ d, env.usable d = true) :
    (fetch_table_info env s).2 = none :=
  foldDbs_none _ (fun _ _ hdb => fetch_db_none hu hdb)
    (fun s2 db => (fetch_db_spec env s2 db).1) s.databases s (fun _ hd => hd)

theorem fetch_step_databases (env : Env) (s : BackupState) :
    (fetch_table_info env s).1.databases = s.databases :=
  foldDbs_preserve BackupState.databases _
    (fun s2 db => (fetch_db_spec env s2 db).1) s.databases s

theorem flush_step_stateOk (env : Env) (s : BackupState) (h : StateOk s) :
    StateOk (flush_tables env s).1 :=
  foldDbs_induct _ StateOk (fun s2 db hp hdb => flush_db_stateOk env s2 db hp hdb)
    (fun s2 db => (flush_db_spec env s2 db).1) s.databases s (fun _ hd => hd) h

theorem flush_step_deltas (env : Env) (s : BackupState) :
    Deltas s (flush_tables env s).1 [.connectK, .timeoutK, .flushK] :=
  foldDbs_deltas _ _ (fun s2 db => (flush_db_spec env s2 db).2.2.2.2.2) s.databases s

theorem flush_step_databases (env : Env) (s : BackupState) :
    (flush_tables env s).1.databases = s.databases :=
  foldDbs_preserve BackupState.databases _
    (fun s2 db => (flush_db_spec env s2 db).1) s.databases s

theorem flush_step_locked_true (env : Env) (s : BackupState)
    (hs : (flush_tables env s).2 = none) :
    ∀ db ∈ s.databases, (flush_tables env s).1.locked db = true :=
  flush_fold_locked_true env s.databases s hs

theorem flush_step_events (env : Env) (s : BackupState)
    (hs : (flush_tables env s).2 = none) :
    ∀ db ∈ s.databases, hasKDb .flushK db (flush_tables env s).1.events = true :=
  foldDbs_each_event _ [.connectK, .timeoutK, .flushK] .flushK
    (fun s2 db => (flush_db_spec env s2 db).2.2.2.2.2)
    (fun s2 db hn => (flush_db_success env s2 db hn).2) s.databases s hs

theorem flush_step_fails {env : Env} (s : BackupState)
    (hu : ∀ d, env.usable d = true)
    (hex : ∃ db ∈ s.databases, env.flushOk db = false) :
    (flush_tables env s).2 ≠ none :=
  flush_fold_fails env hu s.databases s (fun _ hd => hd) hex

theorem sync_step_stateOk (env : Env) (s : BackupState) (h : StateOk s) :
    StateOk (flush_changes_to_disk env s).1 :=
  foldDbs_induct _ StateOk (fun s2 db hp _ => sync_db_stateOk env s2 db hp)
    (fun _ _ => rfl) s.databases s (fun _ hd => hd) h

theorem sync_step_deltas (env : Env) (s : BackupState) :
    Deltas s (flush_changes_to_disk env s).1 [.syncK] :=
  foldDbs_deltas _ _ (fun s2 db => sync_db_deltas env s2 db) s.databases s

theorem sync_step_none (env : Env) (s : BackupState) :
    (flush_changes_to_disk env s).2 = none :=
  foldDbs_none _ (fun _ _ _ => rfl) (fun _ _ => rfl) s.databases s (fun _ hd => hd)

theorem sync_step_databases (env : Env) (s : BackupState) :
    (flush_changes_to_disk env s).1.databases = s.databases :=
  foldDbs_preserve BackupState.databases _ (fun _ _ => rfl) s.databases s

theorem sync_step_locked (env : Env) (s : BackupState) :
    (flush_changes_to_disk env s).1.locked = s.locked :=
  foldDbs_preserve BackupState.locked _ (fun _ _ => rfl) s.databases s

theorem sync_step_events (env : Env) (s : BackupState) :
    ∀ db ∈ s.databases, hasKDb .syncK db (flush_changes_to_disk env s).1.events = true :=
  foldDbs_each_event _ [.syncK] .syncK (fun s2 db => sync_db_deltas env s2 db)
    (fun s2 db _ => sync_db_event env s2 db) s.databases s (sync_step_none env s)

theorem validate_step_stateOk (env : Env) (s : BackupState) (h : StateOk s) :
    StateOk (validate_exportable_files env s).1 :=
  foldDbs_induct _ StateOk (fun s2 db hp _ => validate_db_stateOk env s2 db hp)
    (fun s2 db => (validate_db_fields env s2 db).1) s.databases s (fun _ hd => hd) h

theorem validate_step_deltas (env : Env) (s : BackupState) :
    Deltas s (validate_exportable_files env s).1 [.validatedK] :=
  foldDbs_deltas _ _ (fun s2 db => validate_db_deltas env s2 db) s.databases s

theorem validate_step_databases (env : Env) (s : BackupState) :
    (validate_exportable_files env s).1.databases = s.databases :=
  foldDbs_preserve BackupState.databases _
    (fun s2 db => (validate_db_fields env s2 db).1) s.databases s

theorem validate_step_locked (env : Env) (s : BackupState) :
    (validate_exportable_files env s).1.locked = s.locked :=
  foldDbs_preserve BackupState.locked _
    (fun s2 db => (validate_db_fields env s2 db).2.2.1) s.databases s

theorem validate_step_events (env : Env) (s : BackupState)
    (hs : (validate_exportable_files env s).2 = none) :
    ∀ db ∈ s.databases, hasKDb .validatedK db (validate_exportable_files env s).1.events = true :=
  foldDbs_each_event _ [.validatedK] .validatedK
    (fun s2 db => validate_db_deltas env s2 db)
    (fun s2 db hn => validate_db_event env s2 db hn) s.databases s hs

theorem export_step_stateOk (env : Env) (s : BackupState) (h : StateOk s) :
    StateOk (export_table_schemas env s).1 :=
  foldDbs_induct _ StateOk (fun s2 db hp _ => export_db_stateOk env s2 db hp)
    (fun s2 db => (export_db_fields env s2 db).1) s.databases s (fun _ hd => hd) h

theorem export_step_deltas (env : Env) (s : BackupState) :
    Deltas s (export_table_schemas env s).1 [.schemaK] :=
  foldDbs_deltas _ _ (fun s2 db => export_db_deltas env s2 db) s.databases s

theorem export_step_databases (env : Env) (s : BackupState) :
    (export_table_schemas env s).1.databases = s.databases :=
  foldDbs_preserve BackupState.databases _
    (fun s2 db => (export_db_fields env s2 db).1) s.databases s

theorem export_step_locked (env : Env) (s : BackupState) :
    (export_table_schemas env s).1.locked = s.locked :=
  foldDbs_preserve BackupState.locked _
    (fun s2 db => (export_db_fields env s2 db).2.2.1) s.databases s

theorem export_step_events (env : Env) (s : BackupState)
    (hs : (export_table_schemas env s).2 = none) :
    ∀ db ∈ s.databases, hasKDb .schemaK db (export_table_schemas env s).1.events = true :=
  foldDbs_each_event _ [.schemaK] .schemaK
    (fun s2 db => export_db_deltas env s2 db)
    (fun s2 db hn => export_db_event env s2 db hn) s.databases s hs

theorem unlock_step_stateOk (env : Env) (s : BackupState) (h : StateOk s) :
    StateOk (unlock_all_tables env s).1 :=
  foldDbs_induct _ StateOk (fun s2 db hp _ => unlock_db_stateOk env s2 db hp)
    (fun s2 db => (unlock_db_spec env s2 db).1) s.databases s (fun _ hd => hd) h

theorem unlock_step_deltas (env : Env) (s : BackupState) :
    Deltas s (unlock_all_tables env s).1 [.connectK, .timeoutK, .unlockK] :=
  foldDbs_deltas _ _ (fun s2 db => (unlock_db_spec env s2 db).2.2) s.databases s

theorem unlock_step_databases (env : Env) (s : BackupState) :
    (unlock_all_tables env s).1.databases = s.databases :=
  foldDbs_preserve BackupState.databases _
    (fun s2 db => (unlock_db_spec env s2 db).1) s.databases s

theorem unlock_step_none (env : Env) (s : BackupState) (hu : ∀ d, env.usable d = true) :
    (unlock_all_tables env s).2 = none :=
  foldDbs_none _ (fun _ _ hdb => unlock_db_none hu hdb)
    (fun s2 db => (unlock_db_spec env s2 db).1) s.databases s (fun _ hd => hd)

/-! ### Teardown facts -/

theorem del_unlock_fold_false (env : Env) (hu : ∀ d, env.usable d = true) :
    ∀ (dbs : List String) (s : BackupState), (∀ d ∈ dbs, d ∈ s.databases) →
      (foldDbs (del_unlock_db env) dbs s).2 = none ∧
      (∀ db ∈ dbs, (foldDbs (del_unlock_db env) dbs s).1.locked db = false) ∧
      (∀ db2, (foldDbs (del_unlock_db env) dbs s).1.locked db2 = true → s.locked db2 = true) := by
  intro dbs
  induction dbs with
  | nil =>
    intro s _
    exact ⟨rfl, fun db hdb => absurd hdb (List.not_mem_nil db), fun _ h => h⟩
  | cons db0 rest ih =>
    intro s hsub
    have hn := del_unlock_db_none hu (hsub db0 (List.mem_cons_self db0 rest))
    have hfalse0 := del_unlock_db_locked_false env s db0
    have hle0 := del_unlock_db_locked_le env s db0
    obtain ⟨hdbeq, _, _⟩ := del_unlock_db_spec env s db0
    rcases hgd : del_unlock_db env s db0 with ⟨s2, e2⟩
    rw [hgd] at hn hfalse0 hle0 hdbeq
    cases e2 with
    | none =>
      have heq : foldDbs (del_unlock_db env) (db0 :: rest) s =
          foldDbs (del_unlock_db env) rest s2 := by
        simp [foldDbs, hgd]
      obtain ⟨ihn, ihf, ihle⟩ := ih s2 (fun d hd => by
        rw [hdbeq]; exact hsub d (List.mem_cons_of_mem db0 hd))
      rw [heq]
      refine ⟨ihn, ?_, ?_⟩
      · intro db hdb
        rcases List.mem_cons.mp hdb with rfl | hdb2
        · cases hlv : (foldDbs (del_unlock_db env) rest s2).1.locked db with
          | false => rfl
          | true =>
            have h2 := ihle db hlv
            rw [hfalse0 rfl] at h2
            exact absurd h2 (by simp)
        · exact ihf db hdb2
      · intro db2 h2
        exact hle0 db2 (ihle db2 h2)
    | some e => exact absurd hn (by simp)

theorem del_run_stateOk (env : Env) (s : BackupState) (h : StateOk s) :
    StateOk (del_run env s).1 := by
  unfold del_run
  refine afterOk_pres StateOk _ _ ?_ ?_
  · exact foldDbs_induct _ StateOk (fun s2 db hp _ => del_unlock_db_stateOk env s2 db hp)
      (fun s2 db => (del_unlock_db_spec env s2 db).1) s.databases s (fun _ hd => hd) h
  · intro s1 hp
    exact foldDbs_induct _ StateOk (fun s2 db hp2 _ => close_db_stateOk env s2 db hp2)
      (fun s2 db => (close_db_fields env s2 db).1) s1.databases s1 (fun _ hd => hd) hp

theorem del_run_deltas (env : Env) (s : BackupState) :
    Deltas s (del_run env s).1 [.connectK, .timeoutK, .unlockK, .closeK] := by
  unfold del_run
  have h1 : Deltas s (foldDbs (del_unlock_db env) s.databases s).1
      [EKind.connectK, EKind.timeoutK, EKind.unlockK, EKind.closeK] :=
    deltas_mono
      (foldDbs_deltas _ _ (fun s2 db => (del_unlock_db_spec env s2 db).2.2) s.databases s)
      (forall_mem_three (by simp) (by simp) (by simp))
  rcases hf : foldDbs (del_unlock_db env) s.databases s with ⟨s1, e1⟩
  rw [hf] at h1
  cases e1 with
  | none =>
    simp only [afterOk]
    refine deltas_trans h1 ?_
    exact deltas_mono
      (foldDbs_deltas _ _ (fun s2 db => (close_db_fields env s2 db).2.2) s1.databases s1)
      (forall_mem_three (by simp) (by simp) (by simp))
  | some e =>
    simp only [afterOk]
    exact h1

theorem del_run_locked_false (env : Env) (s : BackupState)
    (hu : ∀ d, env.usable d = true)
    (hconf : ∀ db, s.locked db = true → db ∈ s.databases) :
    ∀ db, (del_run env s).1.locked db = false := by
  unfold del_run
  obtain ⟨hnone, hfalse, hle⟩ := del_unlock_fold_false env hu s.databases s (fun _ hd => hd)
  rcases hf : foldDbs (del_unlock_db env) s.databases s with ⟨s1, e1⟩
  rw [hf] at hnone hfalse hle
  cases e1 with
  | none =>
    simp only [afterOk]
    intro db
    have hlkeq : (foldDbs (close_db env) s1.databases s1).1.locked = s1.locked :=
      foldDbs_preserve BackupState.locked _
        (fun s2 db2 => (close_db_fields env s2 db2).2.1) s1.databases s1
    rw [congrFun hlkeq db]
    by_cases hdb : db ∈ s.databases
    · exact hfalse db hdb
    · cases hlv : s1.locked db with
      | false => rfl
      | true => exact absurd (hconf db (hle db hlv)) hdb
  | some e => exact absurd hnone (by simp)

/-! ### Whole-job and whole-run facts -/

theorem init_stateOk {cfg : Config} {s0 : BackupState} (h : init cfg = .ok s0) :
    StateOk s0 := by
  unfold init at h
  by_cases hc : cfg.databases = []
  · rw [if_pos hc] at h
    exact Except.noConfusion h
  · rw [if_neg hc] at h
    have he := Except.ok.inj h
    subst he
    exact ⟨fun db => rfl, fun db hdb => Bool.noConfusion hdb⟩

theorem init_ok_of_ne {cfg : Config} (hne : cfg.databases ≠ []) :
    ∃ s0, init cfg = .ok s0 ∧ s0.databases = cfg.databases ∧ s0.events = [] ∧
      s0.locked = (fun _ => false) ∧ s0.innodbTables = (fun _ => []) ∧
      s0.myisamTables = (fun _ => []) ∧ s0.instances = [] := by
  unfold init
  rw [if_neg hne]
  exact ⟨_, rfl, rfl, rfl, rfl, rfl, rfl, rfl⟩

theorem backup_job_stateOk (env : Env) (s : BackupState) (h : StateOk s) :
    StateOk (backup_job env s).1 := by
  unfold backup_job
  refine afterOk_pres StateOk _ _ (fetch_step_stateOk env s h) ?_
  intro s1 h1
  refine afterOk_pres StateOk _ _ (flush_step_stateOk env s1 h1) ?_
  intro s2 h2
  refine afterOk_pres StateOk _ _ (sync_step_stateOk env s2 h2) ?_
  intro s3 h3
  refine afterOk_pres StateOk _ _ (validate_step_stateOk env s3 h3) ?_
  intro s4 h4
  refine afterOk_pres StateOk _ _ (export_step_stateOk env s4 h4) ?_
  intro s5 h5
  refine afterOk_pres StateOk _ _ h5 ?_
  intro s6 h6
  refine afterOk_pres StateOk _ _ (create_snapshot_stateOk env s6 h6) ?_
  intro s7 h7
  exact unlock_step_stateOk env s7 h7

theorem runBackup_stateOk (env : Env) (cfg : Config) : StateOk (runBackup env cfg).1 := by
  unfold runBackup
  rcases hi : init cfg with e | s0
  · exact ⟨fun db => rfl, fun db hdb => Bool.noConfusion hdb⟩
  · exact del_run_stateOk env _ (backup_job_stateOk env s0 (init_stateOk hi))

theorem runBackup_locked_false (env : Env) (cfg : Config)
    (hu : ∀ d, env.usable d = true) :
    ∀ db, (runBackup env cfg).1.locked db = false := by
  unfold runBackup
  rcases hi : init cfg with e | s0
  · intro db; rfl
  · intro db
    exact del_run_locked_false env (backup_job env s0).1 hu
      (backup_job_stateOk env s0 (init_stateOk hi)).2 db

theorem stepTrace_forall (P : BackupState → Prop) (r : BackupState × Option AgentError)
    (k : BackupState → List BackupState)
    (h1 : P r.1) (h2 : ∀ x ∈ k r.1, P x) :
    ∀ x ∈ stepTrace r k, P x := by
  rcases r with ⟨s, e⟩
  cases e with
  | none =>
    intro x hx
    rcases List.mem_cons.mp hx with rfl | hx2
    · exact h1
    · exact h2 x hx2
  | some e =>
    intro x hx
    rw [List.mem_singleton.mp hx]
    exact h1

theorem jobTrace_stateOk (env : Env) (s : BackupState) (h : StateOk s) :
    ∀ x ∈ jobTrace env s, StateOk x := by
  unfold jobTrace
  have h1 := fetch_step_stateOk env s h
  refine stepTrace_forall StateOk _ _ h1 ?_
  have h2 := flush_step_stateOk env _ h1
  refine stepTrace_forall StateOk _ _ h2 ?_
  have h3 := sync_step_stateOk env _ h2
  refine stepTrace_forall StateOk _ _ h3 ?_
  have h4 := validate_step_stateOk env _ h3
  refine stepTrace_forall StateOk _ _ h4 ?_
  have h5 := export_step_stateOk env _ h4
  refine stepTrace_forall StateOk _ _ h5 ?_
  refine stepTrace_forall StateOk _ _ h5 ?_
  have h7 := create_snapshot_stateOk env _ h5
  refine stepTrace_forall StateOk _ _ h7 ?_
  have h8 := unlock_step_stateOk env _ h7
  refine stepTrace_forall StateOk _ _ h8 ?_
  intro x hx
  exact absurd hx (List.not_mem_nil x)

theorem runStates_stateOk (env : Env) (cfg : Config) :
    ∀ x ∈ runStates env cfg, StateOk x := by
  unfold runStates
  rcases hi : init cfg with e | s0
  · intro x hx
    rw [List.mem_singleton.mp hx]
    exact ⟨fun db => rfl, fun db hdb => Bool.noConfusion hdb⟩
  · intro x hx
    have hok0 := init_stateOk hi
    rcases List.mem_cons.mp hx with rfl | hx2
    · exact hok0
    rcases List.mem_append.mp hx2 with hx3 | hx4
    · exact jobTrace_stateOk env s0 hok0 x hx3
    · rw [List.mem_singleton.mp hx4]
      exact runBackup_stateOk env cfg

theorem runStates_last_mem (env : Env) (cfg : Config) :
    (runBackup env cfg).1 ∈ runStates env cfg := by
  unfold runStates
  rcases hi : init cfg with e | s0
  · unfold runBackup
    rw [hi]
    exact List.mem_singleton_self _
  · exact List.mem_cons_of_mem s0 (List.mem_append_right _ (List.mem_singleton_self _))

/-! ### A released flag after a flush means an unlock happened -/

theorem hasKDb_cons (k : EKind) (db : String) (e : Event) (tr : List Event) :
    hasKDb k db (e :: tr) = ((e.kind == k && e.dbOf == some db) || hasKDb k db tr) :=
  List.any_cons

theorem unlock_of_flush_aux (db : String) :
    ∀ (tr : List Event) (b : Bool),
      tr.foldl (lockStep db) b = false →
      (b = true ∨ hasKDb .flushK db tr = true) →
      hasKDb .unlockK db tr = true := by
  intro tr
  induction tr with
  | nil =>
    intro b h1 h2
    rcases h2 with rfl | h2
    · exact absurd h1 (by simp)
    · exact absurd h2 (by simp [hasKDb])
  | cons e tr ih =>
    intro b h1 h2
    rw [List.foldl_cons] at h1
    rcases he : e with d | ⟨d, n⟩ | d | ⟨d, stmt⟩ | d | d | d | u | d | d
    all_goals rw [he] at h1 h2
    -- connect
    · rw [hasKDb_cons]
      refine Bool.or_eq_true _ _ |>.mpr (Or.inr ?_)
      refine ih b h1 ?_
      rcases h2 with hb | h2
      · exact Or.inl hb
      · rw [hasKDb_cons] at h2
        rcases Bool.or_eq_true _ _ |>.mp h2 with h3 | h3
        · exact absurd h3 (by simp [Event.kind])
        · exact Or.inr h3
    -- sessionTimeout
    · rw [hasKDb_cons]
      refine Bool.or_eq_true _ _ |>.mpr (Or.inr ?_)
      refine ih b h1 ?_
      rcases h2 with hb | h2
      · exact Or.inl hb
      · rw [hasKDb_cons] at h2
        rcases Bool.or_eq_true _ _ |>.mp h2 with h3 | h3
        · exact absurd h3 (by simp [Event.kind])
        · exact Or.inr h3
    -- catalogQuery
    · rw [hasKDb_cons]
      refine Bool.or_eq_true _ _ |>.mpr (Or.inr ?_)
      refine ih b h1 ?_
      rcases h2 with hb | h2
      · exact Or.inl hb
      · rw [hasKDb_cons] at h2
        rcases Bool.or_eq_true _ _ |>.mp h2 with h3 | h3
        · exact absurd h3 (by simp [Event.kind])
        · exact Or.inr h3
    -- flush
    · rw [hasKDb_cons]
      refine Bool.or_eq_true _ _ |>.mpr (Or.inr ?_)
      by_cases hd : d = db
      · have hb2 : lockStep db b (Event.flush d stmt) = true := by
          simp [lockStep, hd]
        rw [hb2] at h1
        exact ih true h1 (Or.inl rfl)
      · have hb2 : lockStep db b (Event.flush d stmt) = b := by
          simp [lockStep, hd]
        rw [hb2] at h1
        refine ih b h1 ?_
        rcases h2 with hb | h2
        · exact Or.inl hb
        · rw [hasKDb_cons] at h2
          rcases Bool.or_eq_true _ _ |>.mp h2 with h3 | h3
          · exact absurd h3 (by simp [Event.kind, Event.dbOf, hd])
          · exact Or.inr h3
    -- syncDone
    · rw [hasKDb_cons]
      refine Bool.or_eq_true _ _ |>.mpr (Or.inr ?_)
      refine ih b h1 ?_
      rcases h2 with hb | h2
      · exact Or.inl hb
      · rw [hasKDb_cons] at h2
        rcases Bool.or_eq_true _ _ |>.mp h2 with h3 | h3
        · exact absurd h3 (by simp [Event.kind])
        · exact Or.inr h3
    -- validated
    · rw [hasKDb_cons]
      refine Bool.or_eq_true _ _ |>.mpr (Or.inr ?_)
      refine ih b h1 ?_
      rcases h2 with hb | h2
      · exact Or.inl hb
      · rw [hasKDb_cons] at h2
        rcases Bool.or_eq_true _ _ |>.mp h2 with h3 | h3
        · exact absurd h3 (by simp [Event.kind])
        · exact Or.inr h3
    -- schemaExported
    · rw [hasKDb_cons]
      refine Bool.or_eq_true _ _ |>.mpr (Or.inr ?_)
      refine ih b h1 ?_
      rcases h2 with hb | h2
      · exact Or.inl hb
      · rw [hasKDb_cons] at h2
        rcases Bool.or_eq_true _ _ |>.mp h2 with h3 | h3
        · exact absurd h3 (by simp [Event.kind])
        · exact Or.inr h3
    -- snapshotCall
    · rw [hasKDb_cons]
      refine Bool.or_eq_true _ _ |>.mpr (Or.inr ?_)
      refine ih b h1 ?_
      rcases h2 with hb | h2
      · exact Or.inl hb
      · rw [hasKDb_cons] at h2
        rcases Bool.or_eq_true _ _ |>.mp h2 with h3 | h3
        · exact absurd h3 (by simp [Event.kind])
        · exact Or.inr h3
    -- unlockStmt
    · by_cases hd : d = db
      · rw [hasKDb_cons]
        refine Bool.or_eq_true _ _ |>.mpr (Or.inl ?_)
        simp [Event.kind, Event.dbOf, hd]
      · rw [hasKDb_cons]
        refine Bool.or_eq_true _ _ |>.mpr (Or.inr ?_)
        have hb2 : lockStep db b (Event.unlockStmt d) = b := by
          simp [lockStep, hd]
        rw [hb2] at h1
        refine ih b h1 ?_
        rcases h2 with hb | h2
        · exact Or.inl hb
        · rw [hasKDb_cons] at h2
          rcases Bool.or_eq_true _ _ |>.mp h2 with h3 | h3
          · exact absurd h3 (by simp [Event.kind])
          · exact Or.inr h3
    -- closeConn
    · rw [hasKDb_cons]
      refine Bool.or_eq_true _ _ |>.mpr (Or.inr ?_)
      refine ih b h1 ?_
      rcases h2 with hb | h2
      · exact Or.inl hb
      · rw [hasKDb_cons] at h2
        rcases Bool.or_eq_true _ _ |>.mp h2 with h3 | h3
        · exact absurd h3 (by simp [Event.kind])
        · exact Or.inr h3

theorem unlock_of_flush {db : String} {tr : List Event}
    (h1 : lockedInTrace db tr = false)
    (h2 : hasKDb .flushK db tr = true) :
    hasKDb .unlockK db tr = true :=
  unlock_of_flush_aux db tr false h1 (Or.inr h2)

/-! ### Concrete fixtures -/




/-! ### The claims -/

/-- C1: For every configured database, the lock flag
(`_db_tables_locked[db]`) is true only between a successful
flush-for-export for that database and its corresponding unlock (at every
observed state of a run, the flag equals exactly what the flush/unlock
events of the trace so far prescribe), and at process end (whether the run
succeeded or failed) every database's lock flag is false (given that the
cached connections stay usable, so that teardown can issue its unlock
statements). -/
theorem c1_lock_flag_lifecycle (env : Env) (cfg : Config) :
    (∀ s ∈ runStates env cfg, ∀ db, s.locked db = lockedInTrace db s.events) ∧
    ((∀ d, env.usable d = true) → ∀ db, (runBackup env cfg).1.locked db = false) := by
  constructor
  · intro s hs db
    exact (runStates_stateOk env cfg s hs).1 db
  · intro hu db
    exact runBackup_locked_false env cfg hu db

theorem c1_witness :
    (∀ db, (runBackup envA cfgA).1.locked db = false) ∧
    (∀ db, (runBackup envA cfgA).1.locked db =
      lockedInTrace db (runBackup envA cfgA).1.events) :=
  ⟨(c1_lock_flag_lifecycle envA cfgA).2 (fun _ => rfl),
   (c1_lock_flag_lifecycle envA cfgA).1 (runBackup envA cfgA).1 (runStates_last_mem envA cfgA)⟩

/-- C2: If flush-for-export fails for any configured database, the pipeline
aborts so that the snapshot endpoint is never called (no snapshot event in
the whole run's trace), and teardown still unlocks every database whose
flush had already succeeded: every lock flag ends false, and every database
with a successful flush event also has an unlock event. -/
theorem c2_flush_failure_aborts (env : Env) (cfg : Config)
    (hu : ∀ d, env.usable d = true)
    (hfail : ∃ db ∈ cfg.databases, env.flushOk db = false) :
    hasK .snapshotK (runBackup env cfg).1.events = false ∧
    ∀ db, (runBackup env cfg).1.locked db = false ∧
      (hasKDb .flushK db (runBackup env cfg).1.events = true →
       hasKDb .unlockK db (runBackup env cfg).1.events = true) := by
  have hne : cfg.databases ≠ [] := by
    rcases hfail with ⟨db, hm, _⟩
    intro hemp
    rw [hemp] at hm
    exact absurd hm (List.not_mem_nil db)
  obtain ⟨s0, hi, hdbs0, hev0, hlk0, _, _, _⟩ := init_ok_of_ne hne
  have hrb : runBackup env cfg = ((del_run env (backup_job env s0).1).1, (backup_job env s0).2) := by
    unfold runBackup
    rw [hi]
  have hf2 := fetch_step_none env s0 hu
  rcases hfc : fetch_table_info env s0 with ⟨s1, e1⟩
  rw [hfc] at hf2
  have he1 : e1 = none := hf2
  subst he1
  have hdb1 : s1.databases = cfg.databases := by
    have hx := fetch_step_databases env s0
    rw [hfc] at hx
    rw [hx, hdbs0]
  have hex1 : ∃ db ∈ s1.databases, env.flushOk db = false := by
    rw [hdb1]
    exact hfail
  have hflf := flush_step_fails s1 hu hex1
  rcases hflr : flush_tables env s1 with ⟨s2, e2⟩
  rw [hflr] at hflf
  cases e2 with
  | none => exact absurd rfl hflf
  | some err =>
    have hjob : backup_job env s0 = (s2, some err) := by
      unfold backup_job
      rw [hfc]
      simp only [afterOk]
      rw [hflr]
    rw [hjob] at hrb
    have hfin : (runBackup env cfg).1 = (del_run env s2).1 := by rw [hrb]
    have hd1 : Deltas s0 s1 [.connectK, .timeoutK, .catalogK] := by
      have hx := fetch_step_deltas env s0
      rw [hfc] at hx
      exact hx
    have hd2 : Deltas s1 s2 [.connectK, .timeoutK, .flushK] := by
      have hx := flush_step_deltas env s1
      rw [hflr] at hx
      exact hx
    have hd3 := del_run_deltas env s2
    have hs0snap : hasK .snapshotK s0.events = false := by rw [hev0]; rfl
    have hsnap1 : hasK .snapshotK s1.events = false :=
      hasK_false_of_deltas hd1 (by simp) hs0snap
    have hsnap2 : hasK .snapshotK s2.events = false :=
      hasK_false_of_deltas hd2 (by simp) hsnap1
    have hsnap3 : hasK .snapshotK (del_run env s2).1.events = false :=
      hasK_false_of_deltas hd3 (by simp) hsnap2
    have hok0 := init_stateOk hi
    have hok1 : StateOk s1 := by
      have hx := fetch_step_stateOk env s0 hok0
      rw [hfc] at hx
      exact hx
    have hok2 : StateOk s2 := by
      have hx := flush_step_stateOk env s1 hok1
      rw [hflr] at hx
      exact hx
    have hokF : StateOk (del_run env s2).1 := del_run_stateOk env s2 hok2
    have hlkF : ∀ db, (del_run env s2).1.locked db = false :=
      del_run_locked_false env s2 hu hok2.2
    rw [hfin]
    refine ⟨hsnap3, ?_⟩
    intro db
    refine ⟨hlkF db, ?_⟩
    intro hflush
    refine unlock_of_flush ?_ hflush
    have hinv := hokF.1 db
    rw [hlkF db] at hinv
    exact hinv.symm

theorem c2_witness :
    hasK .snapshotK (runBackup envB cfgA).1.events = false ∧
    ∀ db, (runBackup envB cfgA).1.locked db = false ∧
      (hasKDb .flushK db (runBackup envB cfgA).1.events = true →
       hasKDb .unlockK db (runBackup envB cfgA).1.events = true) :=
  c2_flush_failure_aborts envB cfgA (fun _ => rfl) ⟨"shop", by decide, rfl⟩

/-! ### The trace before the snapshot call -/


theorem takeWhile_all_append {α : Type} (p : α → Bool) :
    ∀ (xs : List α) (y : α) (ys : List α),
      (∀ x ∈ xs, p x = true) → p y = false →
      List.takeWhile p (xs ++ y :: ys) = xs := by
  intro xs
  induction xs with
  | nil =>
    intro y ys _ hy
    rw [List.nil_append, List.takeWhile_cons, if_neg (by rw [hy]; exact Bool.noConfusion)]
  | cons x xs ih =>
    intro y ys hall hy
    have hx := hall x (List.mem_cons_self x xs)
    rw [List.cons_append, List.takeWhile_cons, if_pos hx,
      ih y ys (fun a ha => hall a (List.mem_cons_of_mem x ha)) hy]

theorem preSnap_of_append {tr d : List Event} {url : String}
    (h : hasK .snapshotK tr = false) :
    preSnap (tr ++ (Event.snapshotCall url :: d)) = tr := by
  unfold preSnap
  refine takeWhile_all_append _ tr _ d ?_ ?_
  · intro x hx
    have hx2 : (x.kind == EKind.snapshotK) = false := by
      unfold hasK at h
      rw [List.any_eq_false] at h
      exact Bool.not_eq_true _ |>.mp (h x hx)
    rw [hx2]
    rfl
  · simp [Event.kind]

theorem init_fields {cfg : Config} {s0 : BackupState} (h : init cfg = .ok s0) :
    s0.databases = cfg.databases ∧ s0.events = [] ∧
    s0.locked = (fun _ => false) ∧ s0.innodbTables = (fun _ => []) ∧
    s0.myisamTables = (fun _ => []) ∧ s0.instances = [] ∧
    s0.dbBasePath = cfg.db_base_path := by
  unfold init at h
  by_cases hc : cfg.databases = []
  · rw [if_pos hc] at h
    exact Except.noConfusion h
  · rw [if_neg hc] at h
    have he := Except.ok.inj h
    subst he
    exact ⟨rfl, rfl, rfl, rfl, rfl, rfl, rfl⟩

theorem runBackup_ok {env : Env} {cfg : Config} {s0 : BackupState}
    (hi : init cfg = .ok s0) :
    runBackup env cfg = ((del_run env (backup_job env s0).1).1, (backup_job env s0).2) := by
  unfold runBackup
  rw [hi]

theorem runBackup_err {env : Env} {cfg : Config} {e : AgentError}
    (hi : init cfg = .error e) :
    runBackup env cfg = (emptyState, some e) := by
  unfold runBackup
  rw [hi]

/-- C3: The snapshot trigger executes only after every configured database
has completed lock+flush, disk sync, file validation, and schema export,
and before any unlock: if the run's trace contains a snapshot call at all,
then the part of the trace before it contains, for every configured
database, a successful flush, a disk sync, a validation and a schema
export, contains no unlock statement, and prescribes a raised lock flag for
every configured database; moreover, a non-success snapshot response fails
the run with `SnapshotTriggerError`. -/
theorem c3_snapshot_serialization (env : Env) (cfg : Config)
    (hu : ∀ d, env.usable d = true)
    (hsnap : hasK .snapshotK (runBackup env cfg).1.events = true) :
    (∀ db ∈ cfg.databases,
       hasKDb .flushK db (preSnap (runBackup env cfg).1.events) = true ∧
       hasKDb .syncK db (preSnap (runBackup env cfg).1.events) = true ∧
       hasKDb .validatedK db (preSnap (runBackup env cfg).1.events) = true ∧
       hasKDb .schemaK db (preSnap (runBackup env cfg).1.events) = true ∧
       lockedInTrace db (preSnap (runBackup env cfg).1.events) = true) ∧
    hasK .unlockK (preSnap (runBackup env cfg).1.events) = false ∧
    (env.snapshotOk = false → (runBackup env cfg).2 = some .snapshotTriggerError) := by
  rcases hi : init cfg with e0 | s0
  · exfalso
    have hemp : (runBackup env cfg).1.events = [] := by
      rw [runBackup_err hi]
      rfl
    rw [hemp] at hsnap
    exact Bool.noConfusion hsnap
  · obtain ⟨hdbs0, hev0, hlk0, _, _, _, _⟩ := init_fields hi
    have hok0 := init_stateOk hi
    -- step 1: fetch always succeeds
    have hf2 := fetch_step_none env s0 hu
    rcases hfc : fetch_table_info env s0 with ⟨s1, e1⟩
    rw [hfc] at hf2
    have he1 : e1 = none := hf2
    subst he1
    have hd1 : Deltas s0 s1 [.connectK, .timeoutK, .catalogK] := by
      have hx := fetch_step_deltas env s0
      rw [hfc] at hx
      exact hx
    have hdb1 : s1.databases = cfg.databases := by
      have hx := fetch_step_databases env s0
      rw [hfc] at hx
      rw [hx, hdbs0]
    have hok1 : StateOk s1 := by
      have hx := fetch_step_stateOk env s0 hok0
      rw [hfc] at hx
      exact hx
    have hsnapE0 : hasK .snapshotK s0.events = false := by rw [hev0]; rfl
    have hunlkE0 : hasK .unlockK s0.events = false := by rw [hev0]; rfl
    have hsnapE1 : hasK .snapshotK s1.events = false :=
      hasK_false_of_deltas hd1 (by simp) hsnapE0
    have hunlkE1 : hasK .unlockK s1.events = false :=
      hasK_false_of_deltas hd1 (by simp) hunlkE0
    -- step 2: flush
    rcases hflr : flush_tables env s1 with ⟨s2, e2⟩
    cases e2 with
    | some err =>
      exfalso
      have hjob : backup_job env s0 = (s2, some err) := by
        unfold backup_job
        rw [hfc]
        simp only [afterOk]
        rw [hflr]
      have hd2 : Deltas s1 s2 [.connectK, .timeoutK, .flushK] := by
        have hx := flush_step_deltas env s1
        rw [hflr] at hx
        exact hx
      have hfin : (runBackup env cfg).1 = (del_run env s2).1 := by
        rw [runBackup_ok hi, hjob]
      have hsnapF : hasK .snapshotK (runBackup env cfg).1.events = false := by
        rw [hfin]
        exact hasK_false_of_deltas (del_run_deltas env s2) (by simp)
          (hasK_false_of_deltas hd2 (by simp) hsnapE1)
      rw [hsnapF] at hsnap
      exact Bool.noConfusion hsnap
    | none =>
      have hd2 : Deltas s1 s2 [.connectK, .timeoutK, .flushK] := by
        have hx := flush_step_deltas env s1
        rw [hflr] at hx
        exact hx
      have hdb2 : s2.databases = cfg.databases := by
        have hx := flush_step_databases env s1
        rw [hflr] at hx
        rw [hx, hdb1]
      have hok2 : StateOk s2 := by
        have hx := flush_step_stateOk env s1 hok1
        rw [hflr] at hx
        exact hx
      have hsnapE2 : hasK .snapshotK s2.events = false :=
        hasK_false_of_deltas hd2 (by simp) hsnapE1
      have hunlkE2 : hasK .unlockK s2.events = false :=
        hasK_false_of_deltas hd2 (by simp) hunlkE1
      have hlock2 : ∀ db ∈ cfg.databases, s2.locked db = true := by
        intro db hdb
        have hx := flush_step_locked_true env s1 (by rw [hflr]) db (by rw [hdb1]; exact hdb)
        rw [hflr] at hx
        exact hx
      have hflev2 : ∀ db ∈ cfg.databases, hasKDb .flushK db s2.events = true := by
        intro db hdb
        have hx := flush_step_events env s1 (by rw [hflr]) db (by rw [hdb1]; exact hdb)
        rw [hflr] at hx
        exact hx
      -- step 3: sync (never fails)
      have hs3n := sync_step_none env s2
      rcases hsyr : flush_changes_to_disk env s2 with ⟨s3, e3⟩
      rw [hsyr] at hs3n
      have he3 : e3 = none := hs3n
      subst he3
      have hd3 : Deltas s2 s3 [.syncK] := by
        have hx := sync_step_deltas env s2
        rw [hsyr] at hx
        exact hx
      have hdb3 : s3.databases = cfg.databases := by
        have hx := sync_step_databases env s2
        rw [hsyr] at hx
        rw [hx, hdb2]
      have hlk3 : s3.locked = s2.locked := by
        have hx := sync_step_locked env s2
        rw [hsyr] at hx
        exact hx
      have hok3 : StateOk s3 := by
        have hx := sync_step_stateOk env s2 hok2
        rw [hsyr] at hx
        exact hx
      have hsnapE3 : hasK .snapshotK s3.events = false :=
        hasK_false_of_deltas hd3 (by simp) hsnapE2
      have hunlkE3 : hasK .unlockK s3.events = false :=
        hasK_false_of_deltas hd3 (by simp) hunlkE2
      have hsyev3 : ∀ db ∈ cfg.databases, hasKDb .syncK db s3.events = true := by
        intro db hdb
        have hx := sync_step_events env s2 db (by rw [hdb2]; exact hdb)
        rw [hsyr] at hx
        exact hx
      -- step 4: validate
      rcases hvar : validate_exportable_files env s3 with ⟨s4, e4⟩
      cases e4 with
      | some err =>
        exfalso
        have hjob : backup_job env s0 = (s4, some err) := by
          unfold backup_job
          rw [hfc]
          simp only [afterOk]
          rw [hflr]
          simp only [afterOk]
          rw [hsyr]
          simp only [afterOk]
          rw [hvar]
        have hd4 : Deltas s3 s4 [.validatedK] := by
          have hx := validate_step_deltas env s3
          rw [hvar] at hx
          exact hx
        have hfin : (runBackup env cfg).1 = (del_run env s4).1 := by
          rw [runBackup_ok hi, hjob]
        have hsnapF : hasK .snapshotK (runBackup env cfg).1.events = false := by
          rw [hfin]
          exact hasK_false_of_deltas (del_run_deltas env s4) (by simp)
            (hasK_false_of_deltas hd4 (by simp) hsnapE3)
        rw [hsnapF] at hsnap
        exact Bool.noConfusion hsnap
      | none =>
        have hd4 : Deltas s3 s4 [.validatedK] := by
          have hx := validate_step_deltas env s3
          rw [hvar] at hx
          exact hx
        have hdb4 : s4.databases = cfg.databases := by
          have hx := validate_step_databases env s3
          rw [hvar] at hx
          rw [hx, hdb3]
        have hlk4 : s4.locked = s3.locked := by
          have hx := validate_step_locked env s3
          rw [hvar] at hx
          exact hx
        have hok4 : StateOk s4 := by
          have hx := validate_step_stateOk env s3 hok3
          rw [hvar] at hx
          exact hx
        have hsnapE4 : hasK .snapshotK s4.events = false :=
          hasK_false_of_deltas hd4 (by simp) hsnapE3
        have hunlkE4 : hasK .unlockK s4.events = false :=
          hasK_false_of_deltas hd4 (by simp) hunlkE3
        have hvaev4 : ∀ db ∈ cfg.databases, hasKDb .validatedK db s4.events = true := by
          intro db hdb
          have hx := validate_step_events env s3 (by rw [hvar]) db (by rw [hdb3]; exact hdb)
          rw [hvar] at hx
          exact hx
        -- step 5: export schemas
        rcases hexr : export_table_schemas env s4 with ⟨s5, e5⟩
        cases e5 with
        | some err =>
          exfalso
          have hjob : backup_job env s0 = (s5, some err) := by
            unfold backup_job
            rw [hfc]
            simp only [afterOk]
            rw [hflr]
            simp only [afterOk]
            rw [hsyr]
            simp only [afterOk]
            rw [hvar]
            simp only [afterOk]
            rw [hexr]
          have hd5 : Deltas s4 s5 [.schemaK] := by
            have hx := export_step_deltas env s4
            rw [hexr] at hx
            exact hx
          have hfin : (runBackup env cfg).1 = (del_run env s5).1 := by
            rw [runBackup_ok hi, hjob]
          have hsnapF : hasK .snapshotK (runBackup env cfg).1.events = false := by
            rw [hfin]
            exact hasK_false_of_deltas (del_run_deltas env s5) (by simp)
              (hasK_false_of_deltas hd5 (by simp) hsnapE4)
          rw [hsnapF] at hsnap
          exact Bool.noConfusion hsnap
        | none =>
          have hd5 : Deltas s4 s5 [.schemaK] := by
            have hx := export_step_deltas env s4
            rw [hexr] at hx
            exact hx
          have hdb5 : s5.databases = cfg.databases := by
            have hx := export_step_databases env s4
            rw [hexr] at hx
            rw [hx, hdb4]
          have hlk5 : s5.locked = s4.locked := by
            have hx := export_step_locked env s4
            rw [hexr] at hx
            exact hx
          have hok5 : StateOk s5 := by
            have hx := export_step_stateOk env s4 hok4
            rw [hexr] at hx
            exact hx
          have hsnapE5 : hasK .snapshotK s5.events = false :=
            hasK_false_of_deltas hd5 (by simp) hsnapE4
          have hunlkE5 : hasK .unlockK s5.events = false :=
            hasK_false_of_deltas hd5 (by simp) hunlkE4
          have hscev5 : ∀ db ∈ cfg.databases, hasKDb .schemaK db s5.events = true := by
            intro db hdb
            have hx := export_step_events env s4 (by rw [hexr]) db (by rw [hdb4]; exact hdb)
            rw [hexr] at hx
            exact hx
          -- the facts of the pre-snapshot state s5
          have hlock5 : ∀ db ∈ cfg.databases, s5.locked db = true := by
            intro db hdb
            rw [hlk5, hlk4, hlk3]
            exact hlock2 db hdb
          have hall5 : ∀ db ∈ cfg.databases,
              hasKDb .flushK db s5.events = true ∧
              hasKDb .syncK db s5.events = true ∧
              hasKDb .validatedK db s5.events = true ∧
              hasKDb .schemaK db s5.events = true ∧
              lockedInTrace db s5.events = true := by
            intro db hdb
            refine ⟨?_, ?_, ?_, hscev5 db hdb, ?_⟩
            · exact hasKDb_mono hd5 (hasKDb_mono hd4 (hasKDb_mono hd3 (hflev2 db hdb)))
            · exact hasKDb_mono hd5 (hasKDb_mono hd4 (hsyev3 db hdb))
            · exact hasKDb_mono hd5 (hvaev4 db hdb)
            · rw [← hok5.1 db]
              exact hlock5 db hdb
          -- step 7: create_snapshot
          rcases hcsr : create_snapshot env s5 with ⟨s7, e7⟩
          have hs7 : s7 = { s5 with events := s5.events ++ [.snapshotCall s5.snapshotTriggerUrl] } := by
            have hx := create_snapshot_fst env s5
            rw [hcsr] at hx
            exact hx
          have he7 : e7 = if env.snapshotOk then none else some .snapshotTriggerError := by
            have hx := create_snapshot_snd env s5
            rw [hcsr] at hx
            exact hx
          by_cases hso : env.snapshotOk = true
          · -- snapshot success: job continues to unlock_all_tables
            have he7n : e7 = none := by rw [he7, if_pos hso]
            subst he7n
            have hu8 := unlock_step_none env s7 hu
            rcases hulr : unlock_all_tables env s7 with ⟨s8, e8⟩
            rw [hulr] at hu8
            have he8 : e8 = none := hu8
            subst he8
            have hjob : backup_job env s0 = (s8, none) := by
              unfold backup_job
              rw [hfc]
              simp only [afterOk]
              rw [hflr]
              simp only [afterOk]
              rw [hsyr]
              simp only [afterOk]
              rw [hvar]
              simp only [afterOk]
              rw [hexr]
              simp only [afterOk, export_collected_metadata_step]
              rw [hcsr]
              simp only [afterOk]
              rw [hulr]
            have hfin : (runBackup env cfg).1 = (del_run env s8).1 := by
              rw [runBackup_ok hi, hjob]
            have hd8 : Deltas s7 s8 [.connectK, .timeoutK, .unlockK] := by
              have hx := unlock_step_deltas env s7
              rw [hulr] at hx
              exact hx
            have hdF : Deltas s7 (del_run env s8).1
                [.connectK, .timeoutK, .unlockK, .closeK] :=
              deltas_trans
                (deltas_mono hd8 (forall_mem_three (by simp) (by simp) (by simp)))
                (del_run_deltas env s8)
            obtain ⟨dF, hdFev, _⟩ := hdF
            have hpre : preSnap (runBackup env cfg).1.events = s5.events := by
              rw [hfin, hdFev, hs7]
              show preSnap ((s5.events ++ [Event.snapshotCall s5.snapshotTriggerUrl]) ++ dF) = s5.events
              rw [List.append_assoc, List.singleton_append]
              exact preSnap_of_append hsnapE5
            rw [hpre]
            refine ⟨hall5, hunlkE5, ?_⟩
            intro hsof
            rw [hsof] at hso
            exact Bool.noConfusion hso
          · -- snapshot failure
            have hsof : env.snapshotOk = false := Bool.not_eq_true _ |>.mp hso
            have he7s : e7 = some .snapshotTriggerError := by rw [he7, if_neg hso]
            subst he7s
            have hjob : backup_job env s0 = (s7, some .snapshotTriggerError) := by
              unfold backup_job
              rw [hfc]
              simp only [afterOk]
              rw [hflr]
              simp only [afterOk]
              rw [hsyr]
              simp only [afterOk]
              rw [hvar]
              simp only [afterOk]
              rw [hexr]
              simp only [afterOk, export_collected_metadata_step]
              rw [hcsr]
            have hfin : (runBackup env cfg).1 = (del_run env s7).1 := by
              rw [runBackup_ok hi, hjob]
            have hout : (runBackup env cfg).2 = some .snapshotTriggerError := by
              rw [runBackup_ok hi, hjob]
            have hdF : Deltas s7 (del_run env s7).1
                [.connectK, .timeoutK, .unlockK, .closeK] := del_run_deltas env s7
            obtain ⟨dF, hdFev, _⟩ := hdF
            have hpre : preSnap (runBackup env cfg).1.events = s5.events := by
              rw [hfin, hdFev, hs7]
              show preSnap ((s5.events ++ [Event.snapshotCall s5.snapshotTriggerUrl]) ++ dF) = s5.events
              rw [List.append_assoc, List.singleton_append]
              exact preSnap_of_append hsnapE5
            rw [hpre]
            exact ⟨hall5, hunlkE5, fun _ => hout⟩

theorem c3_witness :
    (∀ db ∈ cfgA.databases,
       hasKDb .flushK db (preSnap (runBackup envA cfgA).1.events) = true ∧
       hasKDb .syncK db (preSnap (runBackup envA cfgA).1.events) = true ∧
       hasKDb .validatedK db (preSnap (runBackup envA cfgA).1.events) = true ∧
       hasKDb .schemaK db (preSnap (runBackup envA cfgA).1.events) = true ∧
       lockedInTrace db (preSnap (runBackup envA cfgA).1.events) = true) ∧
    hasK .unlockK (preSnap (runBackup envA cfgA).1.events) = false ∧
    (envA.snapshotOk = false → (runBackup envA cfgA).2 = some .snapshotTriggerError) :=
  c3_snapshot_serialization envA cfgA (fun _ => rfl) (by decide)

/-! ### More fixtures -/




/-- C5 (counterexample to the original): after a first `_unlock_tables`
call has left the lock flag `false`, a second call in succession is not a
no-op at the level of issued operations: it executes `UNLOCK TABLES;`
again, so the trace gains a second unlock statement. -/
theorem c5_counterexample :
    ¬ ((unlock_tables_db envA (unlock_tables_db envA sD "shop").1 "shop").1.events =
        (unlock_tables_db envA sD "shop").1.events) ∧
    (unlock_tables_db envA (unlock_tables_db envA sD "shop").1 "shop").1.events.count
        (Event.unlockStmt "shop") = 2 := by
  decide

/-- C5 (amended): for every configured database with a usable cached
connection, calling `_unlock_tables` when the lock flag is already `false`
never raises and leaves every lock flag unchanged (the flag stays `false`),
but it does re-issue the `UNLOCK TABLES;` statement, appending one more
unlock event to the trace. -/
theorem c5_unlock_second_call (env : Env) (s : BackupState) (db : String)
    (hu : env.usable db = true) (hc : db ∈ s.instances)
    (h0 : s.locked db = false) :
    unlock_tables_db env s db =
      ({ s with
          events := s.events ++ [.unlockStmt db],
          locked := updateFn s.locked db false }, none) ∧
    (unlock_tables_db env s db).1.locked db = false ∧
    (∀ db2, (unlock_tables_db env s db).1.locked db2 = s.locked db2) := by
  have hg : getDbR env s db = (s, none) := by
    unfold getDbR get_db
    rw [if_pos hc, if_pos hu]
  have heq : unlock_tables_db env s db =
      ({ s with
          events := s.events ++ [.unlockStmt db],
          locked := updateFn s.locked db false }, none) := by
    unfold unlock_tables_db
    rw [hg]
    simp only [afterOk]
  refine ⟨heq, ?_, ?_⟩
  · rw [heq]
    show updateFn s.locked db false db = false
    rw [updateFn, if_pos rfl]
  · intro db2
    rw [heq]
    show updateFn s.locked db false db2 = s.locked db2
    rw [updateFn]
    by_cases he : db2 = db
    · rw [if_pos he, he, h0]
    · rw [if_neg he]

theorem c5_witness :
    ((unlock_tables_db envA sD "shop").1.locked "shop" = false ∧
     ∀ db2, (unlock_tables_db envA sD "shop").1.locked db2 = sD.locked db2) :=
  ⟨(c5_unlock_second_call envA sD "shop" rfl (by decide) rfl).2.1,
   (c5_unlock_second_call envA sD "shop" rfl (by decide) rfl).2.2⟩

/-- C7: The catalog step classifies each `(table, engine)` row so that
engine `InnoDB` goes to the InnoDB list, engine `MyISAM` goes to the MyISAM
list, and any other engine is excluded from both lists without error; in
particular rows `[("t1","InnoDB"), ("t2","MyISAM"), ("t3","CSV")]` yield
InnoDB = `[t1]`, MyISAM = `[t2]`, and `t3` in neither. -/
theorem c7_classification (rows : List (String × String)) (t : String) :
    (t ∈ (catalogTables rows).1 ↔ (t, "InnoDB") ∈ rows) ∧
    (t ∈ (catalogTables rows).2 ↔ (t, "MyISAM") ∈ rows) ∧
    catalogTables [("t1", "InnoDB"), ("t2", "MyISAM"), ("t3", "CSV")] = (["t1"], ["t2"]) := by
  refine ⟨?_, ?_, by decide⟩
  · rw [catalogTables, classifyRows_eq]
    exact (mem_innOf (catalogQueryResult rows) t).trans
      (catalogQueryResult_perm rows).mem_iff
  · rw [catalogTables, classifyRows_eq]
    exact (mem_myOf (catalogQueryResult rows) t).trans
      (catalogQueryResult_perm rows).mem_iff

/-- C8: Constructing the orchestrator with an empty database list fails
with `ConfigurationError` (the constructor's `ValueError`), and the
failure happens before any database connection is opened: a successfully
constructed orchestrator has no connection handles and has performed no
external operation yet. -/
theorem c8_empty_config (u p url h : String) (pt : Nat) (bp : String) :
    init { databases := [], db_user := u, db_password := p,
           snapshot_trigger_url := url, db_host := h, db_port := pt,
           db_base_path := bp } = .error .configurationError ∧
    (∀ cfg s0, init cfg = .ok s0 → s0.instances = [] ∧ s0.events = []) := by
  constructor
  · unfold init
    rw [if_pos rfl]
  · intro cfg s0 hok
    obtain ⟨_, hev, _, _, _, hins, _⟩ := init_fields hok
    exact ⟨hins, hev⟩

theorem c8_witness :
    init { databases := [], db_user := "u", db_password := "p",
           snapshot_trigger_url := "s", db_host := "h", db_port := 3306,
           db_base_path := "b" } = .error .configurationError ∧
    (s0A.instances = [] ∧ s0A.events = []) :=
  ⟨(c8_empty_config "u" "p" "s" "h" 3306 "b").1,
   (c8_empty_config "u" "p" "s" "h" 3306 "b").2 cfgA s0A rfl⟩

/-- C9: `get_db` behaviour: a cached handle is reused after a liveness
check and an unusable cached handle fails with `ConnectionClosed`; with no
cached handle, a name outside the configured set fails with
`UnknownDatabase`, and otherwise a new handle is created and, immediately
after connecting, the session idle-timeout is raised to 14400 seconds
(four hours). -/
theorem c9_get_db (env : Env) (s : BackupState) (db : String) :
    (db ∈ s.instances → env.usable db = true → get_db env s db = .ok s) ∧
    (db ∈ s.instances → env.usable db = false →
       get_db env s db = .error (.connectionClosed db)) ∧
    (db ∉ s.instances → db ∉ s.databases →
       get_db env s db = .error (.unknownDatabase db)) ∧
    (db ∉ s.instances → db ∈ s.databases →
       get_db env s db = .ok { s with
         instances := s.instances ++ [db],
         events := s.events ++ [.connect db, .sessionTimeout db 14400] } ∧
       14400 = 4 * 60 * 60) := by
  refine ⟨?_, ?_, ?_, ?_⟩
  · intro h1 h2
    unfold get_db
    rw [if_pos h1, if_pos h2]
  · intro h1 h2
    unfold get_db
    rw [if_pos h1, if_neg (by rw [h2]; exact Bool.noConfusion)]
  · intro h1 h3
    unfold get_db
    rw [if_neg h1, if_neg h3]
  · intro h1 h3
    unfold get_db
    rw [if_neg h1, if_pos h3]
    exact ⟨rfl, rfl⟩

theorem c9_witness :
    get_db envA sD "shop" = .ok sD ∧
    get_db envDead sD "shop" = .error (.connectionClosed "shop") ∧
    get_db envA s0A "other" = .error (.unknownDatabase "other") ∧
    (get_db envA s0A "shop" = .ok { s0A with
       instances := s0A.instances ++ ["shop"],
       events := s0A.events ++ [.connect "shop", .sessionTimeout "shop" 14400] } ∧
     14400 = 4 * 60 * 60) :=
  ⟨(c9_get_db envA sD "shop").1 (by decide) rfl,
   (c9_get_db envDead sD "shop").2.1 (by decide) rfl,
   (c9_get_db envA s0A "other").2.2.1 (by decide) (by decide),
   (c9_get_db envA s0A "shop").2.2.2 (by decide) (by decide)⟩

/-- C10: For a configured database whose catalogued InnoDB and MyISAM
table lists are both empty, the flush step does not skip that database: it
still issues the flush-for-export statement built from the empty
table-name list (`FLUSH TABLES  FOR EXPORT;`) and, when that statement
succeeds, sets that database's lock flag to `true`. -/
theorem c10_empty_flush (env : Env) (s : BackupState) (db : String)
    (hc : db ∈ s.instances) (hu : env.usable db = true)
    (hinn : s.innodbTables db = []) (hmy : s.myisamTables db = [])
    (hok : env.flushOk db = true) :
    flushStatement [] = "FLUSH TABLES  FOR EXPORT;" ∧
    flush_tables_db env s db =
      ({ s with
          events := s.events ++ [.flush db "FLUSH TABLES  FOR EXPORT;"],
          locked := updateFn s.locked db true }, none) := by
  constructor
  · rfl
  · have hg : getDbR env s db = (s, none) := by
      unfold getDbR get_db
      rw [if_pos hc, if_pos hu]
    unfold flush_tables_db
    rw [hg]
    simp only [afterOk]
    rw [if_pos hok, hinn, hmy]
    rfl

theorem c10_witness :
    flushStatement [] = "FLUSH TABLES  FOR EXPORT;" ∧
    flush_tables_db envA sD "shop" =
      ({ sD with
          events := sD.events ++ [.flush "shop" "FLUSH TABLES  FOR EXPORT;"],
          locked := updateFn sD.locked "shop" true }, none) :=
  c10_empty_flush envA sD "shop" (by decide) rfl rfl rfl rfl

/-! ### File validation: characterisation -/


theorem dbFilesOk_congr {env : Env} {s s2 : BackupState}
    (h1 : s2.innodbTables = s.innodbTables) (h2 : s2.myisamTables = s.myisamTables)
    (h3 : s2.dbBasePath = s.dbBasePath) (db : String) :
    dbFilesOk env s2 db ↔ dbFilesOk env s db := by
  unfold dbFilesOk dbDirectory
  rw [h1, h2, h3]

theorem not_bnot_eq_false {b : Bool} (h : (!b) = false) : b = true := by
  cases b
  · exact absurd h (by simp)
  · rfl

theorem firstMissingInnodb_none_iff (tables files : List String) :
    firstMissingInnodb tables files = none ↔ ∀ t ∈ tables, (t ++ ".ibd") ∈ files := by
  unfold firstMissingInnodb
  rw [List.find?_eq_none]
  constructor
  · intro h t ht
    have h2 := h t ht
    by_cases hm : (t ++ ".ibd") ∈ files
    · exact hm
    · exfalso
      apply h2
      have hc : files.contains (t ++ ".ibd") = false := by
        cases hcv : files.contains (t ++ ".ibd") with
        | false => rfl
        | true => exact absurd (List.elem_iff.mp hcv) hm
      show (!(files.contains (t ++ ".ibd"))) = true
      rw [hc]
      rfl
  · intro h t ht
    have hc : files.contains (t ++ ".ibd") = true := List.elem_iff.mpr (h t ht)
    show ¬ (!(files.contains (t ++ ".ibd"))) = true
    rw [hc]
    simp

theorem firstMissingMyisam_none_iff (tables files : List String) :
    firstMissingMyisam tables files = none ↔
      ∀ t ∈ tables, (t ++ ".MYD") ∈ files ∧ (t ++ ".MYI") ∈ files := by
  unfold firstMissingMyisam
  rw [List.find?_eq_none]
  constructor
  · intro h t ht
    have h2 := h t ht
    have h3 : (!(files.contains (t ++ ".MYD")) || !(files.contains (t ++ ".MYI"))) = false := by
      cases hcv : (!(files.contains (t ++ ".MYD")) || !(files.contains (t ++ ".MYI"))) with
      | false => rfl
      | true => exact absurd hcv h2
    rw [Bool.or_eq_false_iff] at h3
    obtain ⟨hd, hi⟩ := h3
    exact ⟨List.elem_iff.mp (not_bnot_eq_false hd), List.elem_iff.mp (not_bnot_eq_false hi)⟩
  · intro h t ht
    obtain ⟨hd, hi⟩ := h t ht
    have hcd : files.contains (t ++ ".MYD") = true := List.elem_iff.mpr hd
    have hci : files.contains (t ++ ".MYI") = true := List.elem_iff.mpr hi
    show ¬ (!(files.contains (t ++ ".MYD")) || !(files.contains (t ++ ".MYI"))) = true
    rw [hcd, hci]
    simp

theorem firstMissingInnodb_some {tables files : List String} {t : String}
    (h : firstMissingInnodb tables files = some t) :
    t ∈ tables ∧ (t ++ ".ibd") ∉ files := by
  refine ⟨List.mem_of_find?_eq_some h, ?_⟩
  have hp := List.find?_some h
  intro hm
  have hc : files.contains (t ++ ".ibd") = true := List.elem_iff.mpr hm
  have hp2 : (!(files.contains (t ++ ".ibd"))) = true := hp
  rw [hc] at hp2
  exact Bool.noConfusion hp2

theorem firstMissingMyisam_some {tables files : List String} {t : String}
    (h : firstMissingMyisam tables files = some t) :
    t ∈ tables ∧ ((t ++ ".MYD") ∉ files ∨ (t ++ ".MYI") ∉ files) := by
  unfold firstMissingMyisam at h
  refine ⟨List.mem_of_find?_eq_some h, ?_⟩
  have hp := List.find?_some h
  have hp2 : (!(files.contains (t ++ ".MYD")) || !(files.contains (t ++ ".MYI"))) = true := hp
  rcases Bool.or_eq_true _ _ |>.mp hp2 with h1 | h1
  · left
    intro hm
    have hc : files.contains (t ++ ".MYD") = true := List.elem_iff.mpr hm
    rw [hc] at h1
    exact Bool.noConfusion h1
  · right
    intro hm
    have hc : files.contains (t ++ ".MYI") = true := List.elem_iff.mpr hm
    rw [hc] at h1
    exact Bool.noConfusion h1

theorem validate_db_none_iff (env : Env) (s : BackupState) (db : String) :
    (validate_exportable_files_db env s db).2 = none ↔ dbFilesOk env s db := by
  unfold dbFilesOk
  rcases hm1 : firstMissingInnodb (s.innodbTables db) (env.listDir (dbDirectory s db)) with _ | t1
  · rcases hm2 : firstMissingMyisam (s.myisamTables db) (env.listDir (dbDirectory s db)) with _ | t2
    · constructor
      · intro _
        exact ⟨(firstMissingInnodb_none_iff _ _).mp hm1,
               (firstMissingMyisam_none_iff _ _).mp hm2⟩
      · intro _
        simp [validate_exportable_files_db, hm1, hm2]
    · constructor
      · intro hn
        have hne : (validate_exportable_files_db env s db).2 ≠ none := by
          simp [validate_exportable_files_db, hm1, hm2]
        exact absurd hn hne
      · intro hok
        exfalso
        obtain ⟨hmem, hmiss⟩ := firstMissingMyisam_some hm2
        have hb := hok.2 t2 hmem
        rcases hmiss with h | h
        · exact h hb.1
        · exact h hb.2
  · constructor
    · intro hn
      have hne : (validate_exportable_files_db env s db).2 ≠ none := by
        simp [validate_exportable_files_db, hm1]
      exact absurd hn hne
    · intro hok
      exfalso
      obtain ⟨hmem, hmiss⟩ := firstMissingInnodb_some hm1
      exact hmiss (hok.1 t1 hmem)

theorem validate_db_error (env : Env) (s : BackupState) (db : String) (m : String)
    (h : (validate_exportable_files_db env s db).2 = some (.exportFileNotFound m)) :
    ∃ t, (t ∈ s.innodbTables db ∧ (t ++ ".ibd") ∉ env.listDir (dbDirectory s db) ∧
           m = "IBD file for table " ++ t ++ " not found") ∨
         (t ∈ s.myisamTables db ∧
           ((t ++ ".MYD") ∉ env.listDir (dbDirectory s db) ∨
            (t ++ ".MYI") ∉ env.listDir (dbDirectory s db)) ∧
           m = "MYD or MYI file for table " ++ t ++ " not found") := by
  rcases hm1 : firstMissingInnodb (s.innodbTables db) (env.listDir (dbDirectory s db)) with _ | t1
  · rcases hm2 : firstMissingMyisam (s.myisamTables db) (env.listDir (dbDirectory s db)) with _ | t2
    · exfalso
      have hn : (validate_exportable_files_db env s db).2 = none := by
        simp [validate_exportable_files_db, hm1, hm2]
      rw [hn] at h
      exact Option.noConfusion h
    · obtain ⟨hmem, hmiss⟩ := firstMissingMyisam_some hm2
      have h2 : (validate_exportable_files_db env s db).2 =
          some (.exportFileNotFound ("MYD or MYI file for table " ++ t2 ++ " not found")) := by
        simp [validate_exportable_files_db, hm1, hm2]
      rw [h2] at h
      have hmsg := (AgentError.exportFileNotFound.inj (Option.some.inj h)).symm
      exact ⟨t2, Or.inr ⟨hmem, hmiss, hmsg⟩⟩
  · obtain ⟨hmem, hmiss⟩ := firstMissingInnodb_some hm1
    have h2 : (validate_exportable_files_db env s db).2 =
        some (.exportFileNotFound ("IBD file for table " ++ t1 ++ " not found")) := by
      simp [validate_exportable_files_db, hm1]
    rw [h2] at h
    have hmsg := (AgentError.exportFileNotFound.inj (Option.some.inj h)).symm
    exact ⟨t1, Or.inl ⟨hmem, hmiss, hmsg⟩⟩

theorem validate_fold_none_iff (env : Env) :
    ∀ (dbs : List String) (s : BackupState),
      ((foldDbs (validate_exportable_files_db env) dbs s).2 = none ↔
        ∀ db ∈ dbs, dbFilesOk env s db) := by
  intro dbs
  induction dbs with
  | nil =>
    intro s
    constructor
    · intro _ db hdb
      exact absurd hdb (List.not_mem_nil db)
    · intro _
      rfl
  | cons db0 rest ih =>
    intro s
    obtain ⟨_, hbp, _, hinn, hmy, _⟩ := validate_db_fields env s db0
    have hiff0 := validate_db_none_iff env s db0
    rcases hgd : validate_exportable_files_db env s db0 with ⟨s2, e2⟩
    rw [hgd] at hbp hinn hmy hiff0
    cases e2 with
    | none =>
      have heq : foldDbs (validate_exportable_files_db env) (db0 :: rest) s =
          foldDbs (validate_exportable_files_db env) rest s2 := by
        simp [foldDbs, hgd]
      rw [heq]
      constructor
      · intro hn db hdb
        rcases List.mem_cons.mp hdb with rfl | hdb2
        · exact hiff0.mp rfl
        · exact (dbFilesOk_congr hinn hmy hbp db).mp ((ih s2).mp hn db hdb2)
      · intro hall
        refine (ih s2).mpr ?_
        intro db hdb
        exact (dbFilesOk_congr hinn hmy hbp db).mpr
          (hall db (List.mem_cons_of_mem db0 hdb))
    | some e =>
      have heq : foldDbs (validate_exportable_files_db env) (db0 :: rest) s = (s2, some e) := by
        simp [foldDbs, hgd]
      rw [heq]
      constructor
      · intro hn
        exact Option.noConfusion hn
      · intro hall
        exact Option.noConfusion (hiff0.mpr (hall db0 (List.mem_cons_self db0 rest)))

theorem validate_fold_error (env : Env) :
    ∀ (dbs : List String) (s : BackupState) (m : String),
      (foldDbs (validate_exportable_files_db env) dbs s).2 = some (.exportFileNotFound m) →
      ∃ db ∈ dbs, ∃ t,
        (t ∈ s.innodbTables db ∧ (t ++ ".ibd") ∉ env.listDir (dbDirectory s db) ∧
          m = "IBD file for table " ++ t ++ " not found") ∨
        (t ∈ s.myisamTables db ∧
          ((t ++ ".MYD") ∉ env.listDir (dbDirectory s db) ∨
           (t ++ ".MYI") ∉ env.listDir (dbDirectory s db)) ∧
          m = "MYD or MYI file for table " ++ t ++ " not found") := by
  intro dbs
  induction dbs with
  | nil =>
    intro s m h
    exact Option.noConfusion h
  | cons db0 rest ih =>
    intro s m h
    obtain ⟨_, hbp, _, hinn, hmy, _⟩ := validate_db_fields env s db0
    rcases hgd : validate_exportable_files_db env s db0 with ⟨s2, e2⟩
    rw [hgd] at hbp hinn hmy
    cases e2 with
    | none =>
      have heq : foldDbs (validate_exportable_files_db env) (db0 :: rest) s =
          foldDbs (validate_exportable_files_db env) rest s2 := by
        simp [foldDbs, hgd]
      rw [heq] at h
      obtain ⟨db, hdb, t, ht⟩ := ih s2 m h
      have hdir : dbDirectory s2 db = dbDirectory s db := by
        unfold dbDirectory
        rw [hbp]
      rw [hinn, hmy, hdir] at ht
      exact ⟨db, List.mem_cons_of_mem db0 hdb, t, ht⟩
    | some e =>
      have heq : foldDbs (validate_exportable_files_db env) (db0 :: rest) s = (s2, some e) := by
        simp [foldDbs, hgd]
      rw [heq] at h
      have he : e = .exportFileNotFound m := Option.some.inj h
      subst he
      obtain ⟨t, ht⟩ := validate_db_error env s db0 m (by rw [hgd])
      exact ⟨db0, List.mem_cons_self db0 rest, t, ht⟩

/-! ### Which step can raise which error -/

theorem init_error_shape {cfg : Config} {e : AgentError}
    (h : init cfg = .error e) : e = .configurationError := by
  unfold init at h
  by_cases hc : cfg.databases = []
  · rw [if_pos hc] at h
    exact (Except.error.inj h).symm
  · rw [if_neg hc] at h
    exact Except.noConfusion h

theorem getDbR_error_shape (env : Env) (s : BackupState) (db : String) (e : AgentError)
    (h : (getDbR env s db).2 = some e) :
    e = .connectionClosed db ∨ e = .unknownDatabase db := by
  unfold getDbR get_db at h
  by_cases h1 : db ∈ s.instances
  · by_cases h2 : env.usable db = true
    · rw [if_pos h1, if_pos h2] at h
      exact Option.noConfusion h
    · rw [if_pos h1, if_neg h2] at h
      exact Or.inl (Option.some.inj h).symm
  · by_cases h3 : db ∈ s.databases
    · rw [if_neg h1, if_pos h3] at h
      exact Option.noConfusion h
    · rw [if_neg h1, if_neg h3] at h
      exact Or.inr (Option.some.inj h).symm

theorem foldDbs_error_shape (g : BackupState → String → BackupState × Option AgentError)
    (P : AgentError → Prop)
    (hg : ∀ s db e, (g s db).2 = some e → P e) :
    ∀ (dbs : List String) (s : BackupState) (e : AgentError),
      (foldDbs g dbs s).2 = some e → P e := by
  intro dbs
  induction dbs with
  | nil =>
    intro s e h
    exact Option.noConfusion h
  | cons db0 rest ih =>
    intro s e h
    rcases hgd : g s db0 with ⟨s2, e2⟩
    cases e2 with
    | none =>
      have heq : foldDbs g (db0 :: rest) s = foldDbs g rest s2 := by
        simp [foldDbs, hgd]
      rw [heq] at h
      exact ih s2 e h
    | some e3 =>
      have heq : foldDbs g (db0 :: rest) s = (s2, some e3) := by
        simp [foldDbs, hgd]
      rw [heq] at h
      have he : e3 = e := Option.some.inj h
      subst he
      exact hg s db0 e3 (by rw [hgd])

theorem fetch_db_error_shape (env : Env) (s : BackupState) (db : String) (e : AgentError)
    (h : (fetch_table_info_db env s db).2 = some e) :
    e = .connectionClosed db ∨ e = .unknownDatabase db := by
  unfold fetch_table_info_db at h
  rcases hg : getDbR env s db with ⟨s1, e1⟩
  rw [hg] at h
  cases e1 with
  | none =>
    simp only [afterOk] at h
    exact Option.noConfusion h
  | some e2 =>
    simp only [afterOk] at h
    have he : e2 = e := Option.some.inj h
    subst he
    exact getDbR_error_shape env s db e2 (by rw [hg])

theorem flush_db_error_shape (env : Env) (s : BackupState) (db : String) (e : AgentError)
    (h : (flush_tables_db env s db).2 = some e) :
    e = .connectionClosed db ∨ e = .unknownDatabase db ∨ e = .lockAcquisitionError db := by
  unfold flush_tables_db at h
  rcases hg : getDbR env s db with ⟨s1, e1⟩
  rw [hg] at h
  cases e1 with
  | none =>
    simp only [afterOk] at h
    by_cases hfl : env.flushOk db = true
    · rw [if_pos hfl] at h
      exact Option.noConfusion h
    · rw [if_neg hfl] at h
      exact Or.inr (Or.inr (Option.some.inj h).symm)
  | some e2 =>
    simp only [afterOk] at h
    have he : e2 = e := Option.some.inj h
    subst he
    rcases getDbR_error_shape env s db e2 (by rw [hg]) with h2 | h2
    · exact Or.inl h2
    · exact Or.inr (Or.inl h2)

theorem export_db_error_shape (env : Env) (s : BackupState) (db : String) (e : AgentError)
    (h : (export_table_schemas_db env s db).2 = some e) :
    e = .schemaExportError db := by
  unfold export_table_schemas_db at h
  rcases hc : env.dumpOutput db with _ | out
  · rw [hc] at h
    exact (Option.some.inj h).symm
  · rw [hc] at h
    exact Option.noConfusion h

theorem unlock_db_error_shape (env : Env) (s : BackupState) (db : String) (e : AgentError)
    (h : (unlock_tables_db env s db).2 = some e) :
    e = .connectionClosed db ∨ e = .unknownDatabase db := by
  unfold unlock_tables_db at h
  rcases hg : getDbR env s db with ⟨s1, e1⟩
  rw [hg] at h
  cases e1 with
  | none =>
    simp only [afterOk] at h
    exact Option.noConfusion h
  | some e2 =>
    simp only [afterOk] at h
    have he : e2 = e := Option.some.inj h
    subst he
    exact getDbR_error_shape env s db e2 (by rw [hg])

theorem fetch_step_error_shape (env : Env) (s : BackupState) (e : AgentError)
    (h : (fetch_table_info env s).2 = some e) :
    ∃ db, e = .connectionClosed db ∨ e = .unknownDatabase db :=
  foldDbs_error_shape _ (fun e2 => ∃ db, e2 = .connectionClosed db ∨ e2 = .unknownDatabase db)
    (fun s2 db e2 h2 => ⟨db, fetch_db_error_shape env s2 db e2 h2⟩) s.databases s e h

theorem flush_step_error_shape (env : Env) (s : BackupState) (e : AgentError)
    (h : (flush_tables env s).2 = some e) :
    ∃ db, e = .connectionClosed db ∨ e = .unknownDatabase db ∨ e = .lockAcquisitionError db :=
  foldDbs_error_shape _
    (fun e2 => ∃ db, e2 = .connectionClosed db ∨ e2 = .unknownDatabase db ∨
      e2 = .lockAcquisitionError db)
    (fun s2 db e2 h2 => ⟨db, flush_db_error_shape env s2 db e2 h2⟩) s.databases s e h

theorem export_step_error_shape (env : Env) (s : BackupState) (e : AgentError)
    (h : (export_table_schemas env s).2 = some e) :
    ∃ db, e = .schemaExportError db :=
  foldDbs_error_shape _ (fun e2 => ∃ db, e2 = .schemaExportError db)
    (fun s2 db e2 h2 => ⟨db, export_db_error_shape env s2 db e2 h2⟩) s.databases s e h

theorem unlock_step_error_shape (env : Env) (s : BackupState) (e : AgentError)
    (h : (unlock_all_tables env s).2 = some e) :
    ∃ db, e = .connectionClosed db ∨ e = .unknownDatabase db :=
  foldDbs_error_shape _ (fun e2 => ∃ db, e2 = .connectionClosed db ∨ e2 = .unknownDatabase db)
    (fun s2 db e2 h2 => ⟨db, unlock_db_error_shape env s2 db e2 h2⟩) s.databases s e h

/-! ### An ExportFileNotFound outcome aborts before schema export and snapshot -/

theorem efnf_abort (env : Env) (cfg : Config) (m : String)
    (hout : (runBackup env cfg).2 = some (.exportFileNotFound m)) :
    hasK .schemaK (runBackup env cfg).1.events = false ∧
    hasK .snapshotK (runBackup env cfg).1.events = false := by
  rcases hi : init cfg with e0 | s0
  · exfalso
    have h2 : (runBackup env cfg).2 = some e0 := by rw [runBackup_err hi]
    rw [hout] at h2
    have h3 : AgentError.exportFileNotFound m = e0 := Option.some.inj h2
    rw [init_error_shape hi] at h3
    exact AgentError.noConfusion h3
  · obtain ⟨hdbs0, hev0, _, _, _, _, _⟩ := init_fields hi
    have hout2 : (backup_job env s0).2 = some (.exportFileNotFound m) := by
      rw [runBackup_ok hi] at hout
      exact hout
    have hfin : (runBackup env cfg).1 = (del_run env (backup_job env s0).1).1 := by
      rw [runBackup_ok hi]
    have hschE0 : hasK .schemaK s0.events = false := by rw [hev0]; rfl
    have hsnapE0 : hasK .snapshotK s0.events = false := by rw [hev0]; rfl
    rcases hfc : fetch_table_info env s0 with ⟨s1, e1⟩
    cases e1 with
    | some ef =>
      exfalso
      have hjob : backup_job env s0 = (s1, some ef) := by
        unfold backup_job
        rw [hfc]
        simp only [afterOk]
      rw [hjob] at hout2
      have hef : ef = .exportFileNotFound m := Option.some.inj hout2
      obtain ⟨db, hsh⟩ := fetch_step_error_shape env s0 ef (by rw [hfc])
      rcases hsh with h | h
      · rw [hef] at h
        exact AgentError.noConfusion h
      · rw [hef] at h
        exact AgentError.noConfusion h
    | none =>
      have hd1 : Deltas s0 s1 [.connectK, .timeoutK, .catalogK] := by
        have hx := fetch_step_deltas env s0
        rw [hfc] at hx
        exact hx
      have hschE1 : hasK .schemaK s1.events = false :=
        hasK_false_of_deltas hd1 (by simp) hschE0
      have hsnapE1 : hasK .snapshotK s1.events = false :=
        hasK_false_of_deltas hd1 (by simp) hsnapE0
      rcases hflr : flush_tables env s1 with ⟨s2, e2⟩
      cases e2 with
      | some ef =>
        exfalso
        have hjob : backup_job env s0 = (s2, some ef) := by
          unfold backup_job
          rw [hfc]
          simp only [afterOk]
          rw [hflr]
        rw [hjob] at hout2
        have hef : ef = .exportFileNotFound m := Option.some.inj hout2
        obtain ⟨db, hsh⟩ := flush_step_error_shape env s1 ef (by rw [hflr])
        rcases hsh with h | h | h
        · rw [hef] at h
          exact AgentError.noConfusion h
        · rw [hef] at h
          exact AgentError.noConfusion h
        · rw [hef] at h
          exact AgentError.noConfusion h
      | none =>
        have hd2 : Deltas s1 s2 [.connectK, .timeoutK, .flushK] := by
          have hx := flush_step_deltas env s1
          rw [hflr] at hx
          exact hx
        have hschE2 : hasK .schemaK s2.events = false :=
          hasK_false_of_deltas hd2 (by simp) hschE1
        have hsnapE2 : hasK .snapshotK s2.events = false :=
          hasK_false_of_deltas hd2 (by simp) hsnapE1
        have hs3n := sync_step_none env s2
        rcases hsyr : flush_changes_to_disk env s2 with ⟨s3, e3⟩
        rw [hsyr] at hs3n
        have he3 : e3 = none := hs3n
        subst he3
        have hd3 : Deltas s2 s3 [.syncK] := by
          have hx := sync_step_deltas env s2
          rw [hsyr] at hx
          exact hx
        have hschE3 : hasK .schemaK s3.events = false :=
          hasK_false_of_deltas hd3 (by simp) hschE2
        have hsnapE3 : hasK .snapshotK s3.events = false :=
          hasK_false_of_deltas hd3 (by simp) hsnapE2
        rcases hvar : validate_exportable_files env s3 with ⟨s4, e4⟩
        cases e4 with
        | some ef =>
          have hjob : backup_job env s0 = (s4, some ef) := by
            unfold backup_job
            rw [hfc]
            simp only [afterOk]
            rw [hflr]
            simp only [afterOk]
            rw [hsyr]
            simp only [afterOk]
            rw [hvar]
          have hd4 : Deltas s3 s4 [.validatedK] := by
            have hx := validate_step_deltas env s3
            rw [hvar] at hx
            exact hx
          have hschE4 : hasK .schemaK s4.events = false :=
            hasK_false_of_deltas hd4 (by simp) hschE3
          have hsnapE4 : hasK .snapshotK s4.events = false :=
            hasK_false_of_deltas hd4 (by simp) hsnapE3
          rw [hjob] at hfin
          rw [hfin]
          exact ⟨hasK_false_of_deltas (del_run_deltas env s4) (by simp) hschE4,
                 hasK_false_of_deltas (del_run_deltas env s4) (by simp) hsnapE4⟩
        | none =>
          exfalso
          rcases hexr : export_table_schemas env s4 with ⟨s5, e5⟩
          cases e5 with
          | some ef =>
            have hjob : backup_job env s0 = (s5, some ef) := by
              unfold backup_job
              rw [hfc]
              simp only [afterOk]
              rw [hflr]
              simp only [afterOk]
              rw [hsyr]
              simp only [afterOk]
              rw [hvar]
              simp only [afterOk]
              rw [hexr]
            rw [hjob] at hout2
            have hef : ef = .exportFileNotFound m := Option.some.inj hout2
            obtain ⟨db, hsh⟩ := export_step_error_shape env s4 ef (by rw [hexr])
            rw [hef] at hsh
            exact AgentError.noConfusion hsh
          | none =>
            rcases hcsr : create_snapshot env s5 with ⟨s7, e7⟩
            have he7 : e7 = if env.snapshotOk then none else some .snapshotTriggerError := by
              have hx := create_snapshot_snd env s5
              rw [hcsr] at hx
              exact hx
            by_cases hso : env.snapshotOk = true
            · have he7n : e7 = none := by rw [he7, if_pos hso]
              subst he7n
              rcases hulr : unlock_all_tables env s7 with ⟨s8, e8⟩
              have hjob : backup_job env s0 = (s8, e8) := by
                unfold backup_job
                rw [hfc]
                simp only [afterOk]
                rw [hflr]
                simp only [afterOk]
                rw [hsyr]
                simp only [afterOk]
                rw [hvar]
                simp only [afterOk]
                rw [hexr]
                simp only [afterOk, export_collected_metadata_step]
                rw [hcsr]
                simp only [afterOk]
                rw [hulr]
              rw [hjob] at hout2
              cases e8 with
              | none => exact Option.noConfusion hout2
              | some ef =>
                have hef : ef = .exportFileNotFound m := Option.some.inj hout2
                obtain ⟨db, hsh⟩ := unlock_step_error_shape env s7 ef (by rw [hulr])
                rcases hsh with h | h
                · rw [hef] at h
                  exact AgentError.noConfusion h
                · rw [hef] at h
                  exact AgentError.noConfusion h
            · have he7s : e7 = some .snapshotTriggerError := by
                rw [he7, if_neg hso]
              subst he7s
              have hjob : backup_job env s0 = (s7, some .snapshotTriggerError) := by
                unfold backup_job
                rw [hfc]
                simp only [afterOk]
                rw [hflr]
                simp only [afterOk]
                rw [hsyr]
                simp only [afterOk]
                rw [hvar]
                simp only [afterOk]
                rw [hexr]
                simp only [afterOk, export_collected_metadata_step]
                rw [hcsr]
              rw [hjob] at hout2
              have hef : AgentError.snapshotTriggerError = .exportFileNotFound m :=
                Option.some.inj hout2
              exact AgentError.noConfusion hef



/-- C4: File validation fails with `ExportFileNotFound` naming the missing
table, and before schema export or the snapshot call, exactly when some
catalogued InnoDB table lacks its `.ibd` tablespace file in the database's
directory or some catalogued MyISAM table lacks its `.MYD` data file or
`.MYI` index file; if all required files are present it succeeds.  A run
that ends with `ExportFileNotFound` performed no schema export and no
snapshot call. -/
theorem c4_validation (env : Env) :
    (∀ s : BackupState, (validate_exportable_files env s).2 = none ↔
       ∀ db ∈ s.databases, dbFilesOk env s db) ∧
    (∀ (s : BackupState) (m : String),
       (validate_exportable_files env s).2 = some (.exportFileNotFound m) →
       ∃ db ∈ s.databases, ∃ t,
         (t ∈ s.innodbTables db ∧ (t ++ ".ibd") ∉ env.listDir (dbDirectory s db) ∧
           m = "IBD file for table " ++ t ++ " not found") ∨
         (t ∈ s.myisamTables db ∧
           ((t ++ ".MYD") ∉ env.listDir (dbDirectory s db) ∨
            (t ++ ".MYI") ∉ env.listDir (dbDirectory s db)) ∧
           m = "MYD or MYI file for table " ++ t ++ " not found")) ∧
    (∀ (cfg : Config) (m : String),
       (runBackup env cfg).2 = some (.exportFileNotFound m) →
       hasK .schemaK (runBackup env cfg).1.events = false ∧
       hasK .snapshotK (runBackup env cfg).1.events = false) := by
  refine ⟨?_, ?_, ?_⟩
  · intro s
    exact validate_fold_none_iff env s.databases s
  · intro s m h
    exact validate_fold_error env s.databases s m h
  · intro cfg m h
    exact efnf_abort env cfg m h

theorem c4_witness :
    ((validate_exportable_files envC sC).2 = none ↔
      ∀ db ∈ sC.databases, dbFilesOk envC sC db) ∧
    (∃ db ∈ sC.databases, ∃ t,
       (t ∈ sC.innodbTables db ∧ (t ++ ".ibd") ∉ envC.listDir (dbDirectory sC db) ∧
         "IBD file for table orders not found" = "IBD file for table " ++ t ++ " not found") ∨
       (t ∈ sC.myisamTables db ∧
         ((t ++ ".MYD") ∉ envC.listDir (dbDirectory sC db) ∨
          (t ++ ".MYI") ∉ envC.listDir (dbDirectory sC db)) ∧
         "IBD file for table orders not found" = "MYD or MYI file for table " ++ t ++ " not found")) ∧
    (hasK .schemaK (runBackup envC cfgA).1.events = false ∧
     hasK .snapshotK (runBackup envC cfgA).1.events = false) :=
  ⟨(c4_validation envC).1 sC,
   (c4_validation envC).2.1 sC "IBD file for table orders not found" (by decide),
   (c4_validation envC).2.2 cfgA "IBD file for table orders not found" (by decide)⟩

/-- C6: For every database and every set of catalog rows, the per-database
InnoDB and MyISAM table lists produced by the catalog step are sorted by
table name (the issued query ends in `ORDER BY table_name`), and are
independent of the order in which the catalog rows arrive: two arrivals of
the same rows (with distinct table names) classify identically.  The
catalog step of `fetch_table_info` stores exactly these classified lists
per database. -/
theorem c6_catalog_sorted :
    (∀ rows : List (String × String),
       (catalogTables rows).1.Pairwise (fun t u => strLe t u = true) ∧
       (catalogTables rows).2.Pairwise (fun t u => strLe t u = true)) ∧
    (∀ r1 r2 : List (String × String), r1.Perm r2 → (r1.map Prod.fst).Nodup →
       catalogTables r1 = catalogTables r2) ∧
    (∀ (env : Env) (s : BackupState) (db : String),
       (∀ d, env.usable d = true) → db ∈ s.databases →
       s.innodbTables db = [] → s.myisamTables db = [] →
       (fetch_table_info_db env s db).1.innodbTables db =
         (catalogTables (env.catalogRows db)).1 ∧
       (fetch_table_info_db env s db).1.myisamTables db =
         (catalogTables (env.catalogRows db)).2) := by
  refine ⟨?_, ?_, ?_⟩
  · intro rows
    exact ⟨catalogTables_fst_sorted rows, catalogTables_snd_sorted rows⟩
  · intro r1 r2 hp hnd
    exact catalogTables_eq_of_perm hp hnd
  · intro env s db hu hdb hinn hmy
    have hn := getDbR_none hu hdb
    obtain ⟨_, _, hinn1, hmy1, _, _, _, _⟩ := getDbR_fields env s db
    unfold fetch_table_info_db
    rcases hg : getDbR env s db with ⟨s1, e1⟩
    rw [hg] at hn hinn1 hmy1
    cases e1 with
    | some e => exact absurd hn (by simp)
    | none =>
      simp only [afterOk]
      constructor
      · show updateFn s1.innodbTables db
          (s1.innodbTables db ++ (catalogTables (env.catalogRows db)).1) db =
          (catalogTables (env.catalogRows db)).1
        rw [updateFn, if_pos rfl, hinn1, hinn]
        exact List.nil_append _
      · show updateFn s1.myisamTables db
          (s1.myisamTables db ++ (catalogTables (env.catalogRows db)).2) db =
          (catalogTables (env.catalogRows db)).2
        rw [updateFn, if_pos rfl, hmy1, hmy]
        exact List.nil_append _

theorem c6_witness :
    catalogTables [("b", "InnoDB"), ("a", "MyISAM")] =
      catalogTables [("a", "MyISAM"), ("b", "InnoDB")] ∧
    ((fetch_table_info_db envA sD "shop").1.innodbTables "shop" =
       (catalogTables (envA.catalogRows "shop")).1 ∧
     (fetch_table_info_db envA sD "shop").1.myisamTables "shop" =
       (catalogTables (envA.catalogRows "shop")).2) :=
  ⟨c6_catalog_sorted.2.1 [("b", "InnoDB"), ("a", "MyISAM")]
      [("a", "MyISAM"), ("b", "InnoDB")] (by decide) (by decide),
   c6_catalog_sorted.2.2 envA sD "shop" (fun _ => rfl) (by decide) rfl rfl⟩

end Agent
